import Mathlib

/-!
Verification development for `dirdb` (src/dirdb.py), a directory-catalog and
sync-script generator.  The Python source is shallowly embedded below:

* files are lists of bytes (`List Nat`), file handles are an explicit read
  position;
* the sqlite stores are lists of `FileRecord`s; the SQL statement strings the
  program builds by f-string interpolation are modelled as real strings
  together with a small parser that mirrors how sqlite tokenizes the
  double-quoted literals the program emits (no `""`-escaping is needed for the
  statements considered here);
* `process_dbpath` / `update_paths` (the catalog engine) and
  `gen_sync_script` (the sync planner) are modelled as pure state-passing
  functions over those stores; every `f.write` of the planner becomes an
  emitted `Chunk` whose `render` gives the exact text written;
* `pdb.set_trace()` calls are recorded as events; Python exceptions
  (IndexError / NameError on the planner's record picks) are modelled by
  `Option`, `none` meaning the run aborts.
-/

namespace Dirdb

/-- The double-quote character used by the SQL f-strings. -/
def dq : Char := Char.ofNat 34

/-- The slash character used to join paths. -/
def sl : Char := Char.ofNat 47

/-- Python `str` of an `Optional[str]` as it is interpolated by an f-string:
`str(None)` is the four-character text `None`. -/
def pyStr : Option String → String
  | none => "None"
  | some s => s

/-- A string that contains no double-quote character.  The program's
interpolated SQL statements are well formed exactly on such values. -/
def QuoteFree (s : String) : Prop := ∀ c ∈ s.data, c ≠ dq

instance (s : String) : Decidable (QuoteFree s) := by
  unfold QuoteFree; infer_instance

/-- One row of the `files` relation:
`files(filename, relpath, size, hash, parthash)`.  The two digest columns are
`Option String`, `none` standing for SQL NULL. -/
structure FileRecord where
  filename : String
  relpath  : String
  size     : Nat
  hash     : Option String
  parthash : Option String
deriving Repr, DecidableEq, Inhabited

/-- The `files` relation of one catalog database, in rowid (insertion) order. -/
abbrev Store := List FileRecord

/-! ## Fingerprint (hash_file_partial, src/dirdb.py lines 38-49)

The md5 digest itself is the pluggable collaborator; what the code controls is
the byte stream fed to it.  We model that stream.  A Python binary file handle
is a byte list plus a position: `read(n)` returns the bytes from the current
position (empty past EOF), `seek(off, 2)` sets the position to
`len(file) + off`. -/

/-- `f.read(n)` when the handle is at position `pos`. -/
def readFrom (data : List Nat) (pos n : Nat) : List Nat := (data.drop pos).take n

/-- `f.seek(offset, 2)` (SEEK_END) with a non-negative offset: the new
position, `len(file) + offset`. -/
def seekEnd (data : List Nat) (offset : Nat) : Nat := data.length + offset

/-- The byte stream `hash_file_partial(filepath, chunk_size)` feeds to md5
(src/dirdb.py lines 38-49): if `fsize <= chunk_size * 2` the whole file,
otherwise `f.read(chunk_size)` from the start followed by
`f.seek(chunk_size, 2); f.read(chunk_size)`. -/
def hash_file_partial_bytes (file : List Nat) (chunk_size : Nat) : List Nat :=
  let fsize := file.length
  if fsize ≤ chunk_size * 2 then
    file
  else
    readFrom file 0 chunk_size ++ readFrom file (seekEnd file chunk_size) chunk_size

/-- Modelled from the spec: "if file size ≤ 2·chunk, digest the whole file;
otherwise digest the concatenation of the first `chunk` bytes and the last
`chunk` bytes (seek from end)". -/
def partial_spec_bytes (file : List Nat) (chunk : Nat) : List Nat :=
  if file.length ≤ 2 * chunk then file
  else file.take chunk ++ file.drop (file.length - chunk)

/-- For files larger than `2 * chunk_size` the code digests only the first
chunk: the seek goes `chunk_size` bytes past the end, so the second read is
empty. -/
theorem hash_file_partial_bytes_large (file : List Nat) (chunk_size : Nat)
    (h : chunk_size * 2 < file.length) :
    hash_file_partial_bytes file chunk_size = file.take chunk_size := by
  unfold hash_file_partial_bytes
  rw [if_neg (by omega)]
  have h2 : readFrom file (seekEnd file chunk_size) chunk_size = [] := by
    unfold readFrom seekEnd
    rw [List.drop_eq_nil_of_le (by omega)]
    simp
  rw [h2]
  simp [readFrom]

/-! ## SQL statement construction and its sqlite-side meaning

The program never uses parameterized queries; every statement is built by
f-string interpolation (src/dirdb.py lines 129, 162-165, 176, 193-195, 325,
333-335, 349, 394, 416, 423).  We build the exact statement text for the two
mutating statements on `files` and give a parser that mirrors how sqlite reads
them back: a double-quoted token is the text up to the next double quote
(sqlite treats an unknown double-quoted identifier in value position as a
string literal); anything that fails to parse makes the Python call raise
`sqlite3.OperationalError`, modelled by `none`. -/

/-- Decimal rendering worker; `fuel` bounds the digit count (any `fuel > n`
gives the decimal digits of `n` in front of `acc`). -/
def natCharsAux : Nat → Nat → List Char → List Char
  | 0, _, acc => acc
  | fuel + 1, n, acc =>
    let d := Char.ofNat (48 + n % 10)
    if n < 10 then d :: acc
    else natCharsAux fuel (n / 10) (d :: acc)

/-- Decimal rendering of a `Nat`, as the f-string renders `fsize`. -/
def natChars (n : Nat) (acc : List Char) : List Char := natCharsAux (n + 1) n acc

/-- String form of `natChars`. -/
def natRepr (n : Nat) : String := String.mk (natChars n [])

/-- Wrap a value in the double quotes the f-strings place around it. -/
def quoteStr (s : String) : String := String.singleton dq ++ s ++ String.singleton dq

/-- The text of the INSERT executed at src/dirdb.py lines 162-165 (whitespace
normalized to single spaces):
`INSERT INTO files VALUES ("{f}", "{relpath}", {fsize}, "{fullhash}", "{parthash}")`.
`fullhash` and `parthash` are the Python values, one of which is `None`. -/
def insertSQL (f relpath : String) (fsize : Nat) (fullhash parthash : Option String) : String :=
  "INSERT INTO files VALUES (" ++ quoteStr f ++ ", " ++ quoteStr relpath ++ ", "
    ++ natRepr fsize ++ ", " ++ quoteStr (pyStr fullhash) ++ ", "
    ++ quoteStr (pyStr parthash) ++ ")"

/-- The text of the DELETE executed at src/dirdb.py lines 333-335:
`DELETE FROM files WHERE relpath == "{relpath}"`. -/
def deleteSQL (relpath : String) : String :=
  "DELETE FROM files WHERE relpath == " ++ quoteStr relpath

/-- Consume an expected literal prefix. -/
def parseLit : List Char → List Char → Option (List Char)
  | [], cs => some cs
  | _ :: _, [] => none
  | l :: ls, c :: cs => if c = l then parseLit ls cs else none

/-- Second half of quoted-token parsing: `cs` is what is left after skipping
the content, `content` the skipped characters; the closing quote must be
next. -/
def parseQuotedTail : List Char → List Char → Option (String × List Char)
  | c2 :: rest2, content => if c2 = dq then some (String.mk content, rest2) else none
  | [], _ => none

/-- Parse one double-quoted token: the content runs to the next double
quote. -/
def parseQuoted : List Char → Option (String × List Char)
  | [] => none
  | c :: rest =>
    if c = dq then
      parseQuotedTail (rest.dropWhile (fun x => x ≠ dq)) (rest.takeWhile (fun x => x ≠ dq))
    else none

/-- Numeric value of a run of decimal digit characters. -/
def charsToNat (ds : List Char) : Nat := ds.foldl (fun a c => a * 10 + (c.toNat - 48)) 0

/-- Parse one unquoted decimal integer token. -/
def parseNatTok (cs : List Char) : Option (Nat × List Char) :=
  let ds := cs.takeWhile Char.isDigit
  if ds.isEmpty then none
  else some (charsToNat ds, cs.dropWhile Char.isDigit)

/-- sqlite's reading of the program's INSERT statement: the five values in
order, or `none` (an `OperationalError`) when the interpolated text does not
tokenize.  The two digest slots are double-quoted literals, so the stored
columns are always TEXT, never NULL. -/
def parseInsert (sql : String) : Option FileRecord := do
  let cs ← parseLit "INSERT INTO files VALUES (".data sql.data
  let p1 ← parseQuoted cs
  let cs ← parseLit ", ".data p1.2
  let p2 ← parseQuoted cs
  let cs ← parseLit ", ".data p2.2
  let p3 ← parseNatTok cs
  let cs ← parseLit ", ".data p3.2
  let p4 ← parseQuoted cs
  let cs ← parseLit ", ".data p4.2
  let p5 ← parseQuoted cs
  let cs ← parseLit ")".data p5.2
  if cs.isEmpty then some ⟨p1.1, p2.1, p3.1, some p4.1, some p5.1⟩ else none

/-- What the double-quoted token of the interpolated DELETE denotes after
sqlite's identifier resolution.  Unlike the VALUES list of the INSERT — where
no columns are in scope and every double-quoted token falls back to a string
literal — the WHERE clause of `DELETE FROM files` has the `files` columns and
the rowid aliases in scope, so a token naming one of them (case-insensitively)
is the *column*, and only unknown identifiers fall back to string literals. -/
inductive WhereRhs where
  | litStr (s : String)
  | colFilename
  | colRelpath
  | colSize
  | colHash
  | colParthash
  | colRowid
deriving Repr, DecidableEq, Inhabited

/-- ASCII lowering, as sqlite matches identifiers case-insensitively. -/
def toLowerAscii (s : String) : String := String.mk (s.data.map Char.toLower)

/-- sqlite's resolution of a double-quoted token in the DELETE's WHERE
clause: the five `files` columns and the three rowid aliases resolve to
columns; anything else is the string-literal fallback. -/
def resolveToken (t : String) : WhereRhs :=
  let l := toLowerAscii t
  if l == "filename" then WhereRhs.colFilename
  else if l == "relpath" then WhereRhs.colRelpath
  else if l == "size" then WhereRhs.colSize
  else if l == "hash" then WhereRhs.colHash
  else if l == "parthash" then WhereRhs.colParthash
  else if l == "rowid" || l == "oid" || l == "_rowid_" then WhereRhs.colRowid
  else WhereRhs.litStr t

/-- sqlite's reading of the program's DELETE statement: the resolved
right-hand side of `relpath == ...`, or `none` on a malformed statement. -/
def parseDelete (sql : String) : Option WhereRhs := do
  let cs ← parseLit "DELETE FROM files WHERE relpath == ".data sql.data
  let p1 ← parseQuoted cs
  if p1.2.isEmpty then some (resolveToken p1.1) else none

/-- Executing the INSERT against a store: append the parsed row. -/
def sqlInsertStmt (st : Store) (sql : String) : Option Store :=
  (parseInsert sql).map (fun r => st ++ [r])

/-- Whether a row satisfies `relpath == rhs`.  The schema declares no column
types, so values keep their storage classes: `relpath` is TEXT, `size` and
the rowid are INTEGER — and sqlite's `==` across storage classes is false, a
NULL digest column compares as NULL (no match), and `relpath == relpath` is
true on every row. -/
def deleteMatches (r : FileRecord) : WhereRhs → Bool
  | WhereRhs.litStr s => r.relpath == s
  | WhereRhs.colFilename => r.relpath == r.filename
  | WhereRhs.colRelpath => true
  | WhereRhs.colSize => false
  | WhereRhs.colHash => r.hash == some r.relpath
  | WhereRhs.colParthash => r.parthash == some r.relpath
  | WhereRhs.colRowid => false

/-- Executing the DELETE against a store: remove every row the resolved
WHERE clause matches. -/
def sqlDeleteStmt (st : Store) (sql : String) : Option Store :=
  (parseDelete sql).map (fun rhs => st.filter (fun r => !deleteMatches r rhs))

/-- The INSERT statement the ingestion code builds (src/dirdb.py lines
149-165): in partial-hash mode `fullhash = None` and `parthash` is the digest;
in full-hash mode the other way around. -/
def codeInsertSQL (partial_hash : Bool) (f relpath : String) (fsize : Nat)
    (digest : String) : String :=
  if partial_hash then insertSQL f relpath fsize none (some digest)
  else insertSQL f relpath fsize (some digest) none

/-! ### Round-trip facts about the interpolated statements -/

theorem digitFacts (m : Nat) (hm : m < 10) :
    (Char.ofNat (48 + m)).isDigit = true ∧ (Char.ofNat (48 + m)).toNat = 48 + m ∧
      Char.ofNat (48 + m) ≠ dq := by
  interval_cases m <;> exact ⟨by decide, by decide, by decide⟩

theorem natCharsAux_fuel_irrel (n : Nat) : ∀ f1 f2 acc, n < f1 → n < f2 →
    natCharsAux f1 n acc = natCharsAux f2 n acc := by
  induction n using Nat.strong_induction_on with
  | _ n ih =>
    intro f1 f2 acc h1 h2
    cases f1 with
    | zero => omega
    | succ g1 =>
      cases f2 with
      | zero => omega
      | succ g2 =>
        simp only [natCharsAux]
        by_cases h : n < 10
        · simp [h]
        · have hlt : n / 10 < n := Nat.div_lt_self (by omega) (by omega)
          simp only [h, if_false]
          exact ih (n / 10) hlt g1 g2 _ (by omega) (by omega)

theorem natChars_step (n : Nat) (acc : List Char) :
    natChars n acc = if n < 10 then Char.ofNat (48 + n % 10) :: acc
      else natChars (n / 10) (Char.ofNat (48 + n % 10) :: acc) := by
  by_cases h : n < 10
  · simp [natChars, natCharsAux, h]
  · have hlt : n / 10 < n := Nat.div_lt_self (by omega) (by omega)
    simp only [natChars, natCharsAux, h, if_false]
    exact natCharsAux_fuel_irrel (n / 10) n (n / 10 + 1) _ (by omega) (by omega)

theorem natChars_eq_append (n : Nat) : ∀ acc, natChars n acc = natChars n [] ++ acc := by
  induction n using Nat.strong_induction_on with
  | _ n ih =>
    intro acc
    rw [natChars_step n acc, natChars_step n []]
    by_cases h : n < 10
    · simp [h]
    · have hlt : n / 10 < n := Nat.div_lt_self (by omega) (by omega)
      simp only [h, if_false]
      rw [ih (n / 10) hlt (Char.ofNat (48 + n % 10) :: acc),
          ih (n / 10) hlt [Char.ofNat (48 + n % 10)]]
      simp

theorem natChars_all_digits (n : Nat) : ∀ c ∈ natChars n [], c.isDigit = true ∧ c ≠ dq := by
  induction n using Nat.strong_induction_on with
  | _ n ih =>
    rw [natChars_step]
    by_cases h : n < 10
    · simp only [h, if_true]
      intro c hc
      have hd := digitFacts (n % 10) (Nat.mod_lt _ (by omega))
      simp only [List.mem_singleton] at hc
      subst hc
      exact ⟨hd.1, hd.2.2⟩
    · have hlt : n / 10 < n := Nat.div_lt_self (by omega) (by omega)
      simp only [h, if_false]
      rw [natChars_eq_append]
      intro c hc
      rcases List.mem_append.mp hc with h1 | h1
      · exact ih (n / 10) hlt c h1
      · have hd := digitFacts (n % 10) (Nat.mod_lt _ (by omega))
        simp only [List.mem_singleton] at h1
        subst h1
        exact ⟨hd.1, hd.2.2⟩

theorem natChars_ne_nil (n : Nat) : natChars n [] ≠ [] := by
  rw [natChars_step]
  by_cases h : n < 10
  · simp [h]
  · simp only [h, if_false]
    rw [natChars_eq_append]
    simp

theorem charsToNat_natChars (n : Nat) : charsToNat (natChars n []) = n := by
  induction n using Nat.strong_induction_on with
  | _ n ih =>
    rw [natChars_step]
    by_cases h : n < 10
    · simp only [h, if_true]
      have hd := digitFacts (n % 10) (Nat.mod_lt _ (by omega))
      simp [charsToNat, hd.2.1]
      omega
    · have hlt : n / 10 < n := Nat.div_lt_self (by omega) (by omega)
      simp only [h, if_false]
      rw [natChars_eq_append]
      have hd := digitFacts (n % 10) (Nat.mod_lt _ (by omega))
      simp [charsToNat, List.foldl_append, hd.2.1]
      have := ih (n / 10) hlt
      unfold charsToNat at this
      rw [this]
      omega

theorem takeWhile_append_all {p : Char → Bool} {l r : List Char}
    (h : ∀ c ∈ l, p c = true) : (l ++ r).takeWhile p = l ++ r.takeWhile p := by
  induction l with
  | nil => simp
  | cons c cs ih =>
    simp only [List.cons_append, List.takeWhile_cons, h c (by simp)]
    simp [ih (fun x hx => h x (by simp [hx]))]

theorem dropWhile_append_all {p : Char → Bool} {l r : List Char}
    (h : ∀ c ∈ l, p c = true) : (l ++ r).dropWhile p = r.dropWhile p := by
  induction l with
  | nil => simp
  | cons c cs ih =>
    simp only [List.cons_append, List.dropWhile_cons, h c (by simp)]
    exact ih (fun x hx => h x (by simp [hx]))

theorem dropWhile_eq_self_of_takeWhile_nil {p : Char → Bool} {l : List Char}
    (h : l.takeWhile p = []) : l.dropWhile p = l := by
  cases l with
  | nil => rfl
  | cons c cs =>
    by_cases hc : p c
    · simp [List.takeWhile_cons, hc] at h
    · simp [List.dropWhile_cons, hc]

theorem parseLit_self (lit : List Char) : ∀ rest, parseLit lit (lit ++ rest) = some rest := by
  induction lit with
  | nil => intro rest; rfl
  | cons c cs ih => intro rest; simp [parseLit, ih]

theorem parseQuoted_cons (s : String) (rest : List Char) (h : QuoteFree s) :
    parseQuoted (dq :: (s.data ++ dq :: rest)) = some (s, rest) := by
  have hall : ∀ c ∈ s.data, (fun x => decide (x ≠ dq)) c = true := by
    intro c hc
    simp [h c hc]
  have hdrop : (s.data ++ dq :: rest).dropWhile (fun x => decide (x ≠ dq)) = dq :: rest := by
    rw [dropWhile_append_all hall]
    simp [List.dropWhile_cons]
  have htake : (s.data ++ dq :: rest).takeWhile (fun x => decide (x ≠ dq)) = s.data := by
    rw [takeWhile_append_all hall]
    simp [List.takeWhile_cons]
  have hmk : String.mk s.data = s := by cases s; rfl
  simp only [parseQuoted, if_true]
  rw [hdrop, htake]
  simp [parseQuotedTail, hmk]

theorem parseNatTok_append (n : Nat) (rest : List Char)
    (h : rest.takeWhile Char.isDigit = []) :
    parseNatTok (natChars n [] ++ rest) = some (n, rest) := by
  have hall : ∀ c ∈ natChars n [], Char.isDigit c = true :=
    fun c hc => (natChars_all_digits n c hc).1
  unfold parseNatTok
  rw [takeWhile_append_all hall, dropWhile_append_all hall, h,
      dropWhile_eq_self_of_takeWhile_nil h]
  simp only [List.append_nil]
  rw [if_neg (by simpa [List.isEmpty_iff] using natChars_ne_nil n)]
  rw [charsToNat_natChars]

theorem strData_append (a b : String) : (a ++ b).data = a.data ++ b.data := by
  cases a; cases b; rfl

theorem quoteStr_data (s : String) : (quoteStr s).data = dq :: (s.data ++ [dq]) := by
  cases s; rfl

theorem natRepr_data (n : Nat) : (natRepr n).data = natChars n [] := rfl

/-- Round trip of the interpolated INSERT when all interpolated strings are
quote-free: sqlite stores exactly the interpolated texts, the digest columns
as TEXT (never NULL). -/
theorem parseInsert_insertSQL (f rel : String) (n : Nat) (fh ph : Option String)
    (hf : QuoteFree f) (hr : QuoteFree rel) (hh : QuoteFree (pyStr fh))
    (hp : QuoteFree (pyStr ph)) :
    parseInsert (insertSQL f rel n fh ph)
      = some ⟨f, rel, n, some (pyStr fh), some (pyStr ph)⟩ := by
  have hnodig : ∀ (r : List Char),
      (',' :: ' ' :: r).takeWhile Char.isDigit = [] := by
    intro r
    simp [List.takeWhile_cons, show (',').isDigit = false from rfl]
  unfold parseInsert insertSQL
  simp only [strData_append, quoteStr_data, natRepr_data,
    List.cons_append, List.append_assoc, List.singleton_append, List.nil_append]
  simp only [parseLit, reduceIte, Option.bind_eq_bind, Option.some_bind]
  rw [parseQuoted_cons f _ hf]
  simp only [Option.some_bind, parseLit, reduceIte]
  rw [parseQuoted_cons rel _ hr]
  simp only [Option.some_bind, parseLit, reduceIte]
  rw [parseNatTok_append n _ (hnodig _)]
  simp only [Option.some_bind, parseLit, reduceIte]
  rw [parseQuoted_cons (pyStr fh) _ hh]
  simp only [Option.some_bind, parseLit, reduceIte]
  rw [parseQuoted_cons (pyStr ph) _ hp]
  simp only [Option.some_bind, parseLit, reduceIte]
  simp

/-- Parsing the interpolated DELETE for a quote-free relpath: the statement
tokenizes and its right-hand side is whatever the relpath text resolves to. -/
theorem parseDelete_deleteSQL (rel : String) (hr : QuoteFree rel) :
    parseDelete (deleteSQL rel) = some (resolveToken rel) := by
  unfold parseDelete deleteSQL
  simp only [strData_append, quoteStr_data, List.cons_append, List.append_assoc,
    List.singleton_append, List.nil_append]
  simp only [parseLit, reduceIte, Option.bind_eq_bind, Option.some_bind]
  rw [parseQuoted_cons rel _ hr]
  simp

/-! ## Claim C1 (hash_file_partial)

The claim says that for a file larger than `2·chunk` the partial fingerprint
digests the first `chunk` bytes followed by the *last* `chunk` bytes.  The
code instead calls `f.seek(chunk_size, 2)`, i.e. seeks `chunk_size` bytes
*past* the end of the file, so the second `read` returns nothing and only the
first chunk is digested.  (The tool's own help text says it hashes "a number
of bytes from the beginning and end of a file".)  Concretely, on the
three-byte file `[1, 2, 3]` with `chunk = 1` the code feeds `[1]` to the
digest while the claim requires `[1, 3]`. -/

/-- C1: for a file of 3 bytes and chunk 1 (3 > 2·1), the byte stream the code
digests is only the first chunk `[1]`, not the claimed first-plus-last
`[1, 3]`; the claim is false of the code. -/
theorem C1_tail_read_is_empty :
    hash_file_partial_bytes [1, 2, 3] 1 = [1] ∧
    partial_spec_bytes [1, 2, 3] 1 = [1, 3] ∧
    hash_file_partial_bytes [1, 2, 3] 1 ≠ partial_spec_bytes [1, 2, 3] 1 := by
  decide

/-! ## Claim C4 (digest columns of inserted records)

The INSERT at src/dirdb.py lines 162-165 interpolates the Python value of the
unused digest variable — which is `None` — inside double quotes, so the
"empty" digest column receives the four-character TEXT value `None`, not SQL
NULL. -/

/-- C4 counterexample: a partial-mode insertion of a record stores the TEXT
value `None` in the `hash` column; the column is not SQL null as the claim
states. -/
theorem C4_counterexample_hash_column_not_null :
    parseInsert (codeInsertSQL true "x" "x" 3 "0af5")
        = some ⟨"x", "x", 3, some "None", some "0af5"⟩ ∧
    (⟨"x", "x", 3, some "None", some "0af5"⟩ : FileRecord).hash ≠ none := by
  exact ⟨by rfl, by decide⟩

/-- C4 amended: every record the ingestion inserts has exactly one digest
column holding the computed digest (`parthash` in partial mode, `hash` in
full mode) while the other column holds the literal text `None` — not SQL
null, so readers cannot rely on the unused column being null. -/
theorem C4_one_digest_other_is_None_text (partial_hash : Bool) (f rel d : String) (n : Nat)
    (hf : QuoteFree f) (hr : QuoteFree rel) (hd : QuoteFree d) :
    ∃ r, parseInsert (codeInsertSQL partial_hash f rel n d) = some r ∧
      (if partial_hash then r.parthash = some d ∧ r.hash = some "None"
       else r.hash = some d ∧ r.parthash = some "None") ∧
      r.hash ≠ none ∧ r.parthash ≠ none := by
  cases partial_hash with
  | true =>
    refine ⟨⟨f, rel, n, some "None", some d⟩, ?_, ?_, by simp, by simp⟩
    · have h := parseInsert_insertSQL f rel n none (some d) hf hr (by decide)
        (by simpa [pyStr] using hd)
      simpa [codeInsertSQL, pyStr] using h
    · simp
  | false =>
    refine ⟨⟨f, rel, n, some d, some "None"⟩, ?_, ?_, by simp, by simp⟩
    · have h := parseInsert_insertSQL f rel n (some d) none hf hr
        (by simpa [pyStr] using hd) (by decide)
      simpa [codeInsertSQL, pyStr] using h
    · simp

/-- C4 witness: the amended statement at a concrete input. -/
theorem C4_one_digest_witness :
    ∃ r, parseInsert (codeInsertSQL true "a" "b/c" 7 "beef") = some r ∧
      (if true then r.parthash = some "beef" ∧ r.hash = some "None"
       else r.hash = some "beef" ∧ r.parthash = some "None") ∧
      r.hash ≠ none ∧ r.parthash ≠ none :=
  C4_one_digest_other_is_None_text true "a" "b/c" "beef" 7 (by decide) (by decide) (by decide)

/-! ## Claim C6 (parameterized queries)

All dynamic values are interpolated into the SQL text by f-strings
(src/dirdb.py lines 129, 162-165, 193-195, 325, 333-335, ...); nothing is
parameterized.  A relpath containing a double quote therefore produces a
malformed statement and the insert raises, refuting the claim.  The
insert/list/delete behaviour holds only for relpaths that are both free of
double quotes and not resolvable to a `files` column or rowid alias in the
DELETE's WHERE clause: a relpath such as `relpath` makes the interpolated
DELETE read `relpath == relpath` and delete every row. -/

/-- C6 counterexample: inserting a record whose relpath contains a double
quote makes the interpolated INSERT statement unparseable — the call raises
(`none`) instead of inserting, so the claim's "for every relpath string"
guarantee is false. -/
theorem C6_counterexample_quote_breaks_insert :
    sqlInsertStmt [] (codeInsertSQL true "f" "a\"b" 1 "00ff") = none := by
  rfl

/-- A two-record store whose relpaths are `x` and `y`, used to show what the
interpolated DELETE does when the target relpath names a column. -/
def C6colStore : Store :=
  [⟨"a", "x", 1, some "None", some "h1"⟩, ⟨"b", "y", 2, some "None", some "h2"⟩]

/-- C6 amended: the dynamic values are interpolated into the SQL text, not
parameterized.  For every relpath (and filename and digest) free of double
quotes, and whose text does not resolve to a `files` column or rowid alias
(`filename`, `relpath`, `size`, `hash`, `parthash`, `rowid`, `oid`,
`_rowid_`, case-insensitively), an insert followed by reading the `files`
relation returns the inserted record and the interpolated DELETE removes
exactly the records with that relpath, without raising.  When the relpath
does name a column, the DELETE's WHERE clause compares columns instead: with
target `relpath` it reads `relpath == relpath` and deletes every row, as the
last conjunct shows on a store containing neither relpath `relpath`. -/
theorem C6_quotefree_insert_list_delete (f rel d : String) (n : Nat) (st : Store)
    (hf : QuoteFree f) (hr : QuoteFree rel) (hd : QuoteFree d)
    (hcol : resolveToken rel = WhereRhs.litStr rel) :
    sqlInsertStmt st (codeInsertSQL true f rel n d)
        = some (st ++ [⟨f, rel, n, some "None", some d⟩]) ∧
    (⟨f, rel, n, some "None", some d⟩ : FileRecord)
        ∈ st ++ [(⟨f, rel, n, some "None", some d⟩ : FileRecord)] ∧
    sqlDeleteStmt (st ++ [(⟨f, rel, n, some "None", some d⟩ : FileRecord)]) (deleteSQL rel)
        = some (st.filter (fun r => r.relpath ≠ rel)) ∧
    sqlDeleteStmt C6colStore (deleteSQL "relpath") = some [] := by
  refine ⟨?_, by simp, ?_, by decide⟩
  · have h := parseInsert_insertSQL f rel n none (some d) hf hr (by decide)
      (by simpa [pyStr] using hd)
    simp [sqlInsertStmt, codeInsertSQL]
    simpa [pyStr] using h
  · rw [sqlDeleteStmt, parseDelete_deleteSQL rel hr, hcol]
    simp only [Option.map_some']
    congr 1
    rw [List.filter_append]
    have h1 : List.filter (fun r => !deleteMatches r (WhereRhs.litStr rel))
        [(⟨f, rel, n, some "None", some d⟩ : FileRecord)] = [] := by
      simp [deleteMatches]
    rw [h1, List.append_nil]
    exact List.filter_congr (fun r _ => by
      by_cases h : r.relpath = rel <;> simp [deleteMatches, h])

/-- C6 witness: the amended statement at a concrete input. -/
theorem C6_quotefree_witness :
    sqlInsertStmt [] (codeInsertSQL true "f" "d/e.txt" 9 "cafe")
        = some ([] ++ [⟨"f", "d/e.txt", 9, some "None", some "cafe"⟩]) ∧
    (⟨"f", "d/e.txt", 9, some "None", some "cafe"⟩ : FileRecord)
        ∈ [] ++ [(⟨"f", "d/e.txt", 9, some "None", some "cafe"⟩ : FileRecord)] ∧
    sqlDeleteStmt ([] ++ [(⟨"f", "d/e.txt", 9, some "None", some "cafe"⟩ : FileRecord)])
        (deleteSQL "d/e.txt")
        = some (List.filter (fun r => r.relpath ≠ "d/e.txt") []) ∧
    sqlDeleteStmt C6colStore (deleteSQL "relpath") = some [] :=
  C6_quotefree_insert_list_delete "f" "d/e.txt" "cafe" 9 []
    (by decide) (by decide) (by decide) (by decide)

/-! ## The catalog engine (`process_dbpath` / `update_paths`)

The filesystem a run observes is a list of directories in `os.walk` order
(parents before children), each with its regular files as
`(name, size, digest)`; `digest` is what the pluggable fingerprint function
returns for that file's content in the session's hashing mode.  The sqlite
store of each catalog is a `DB` (its `files` and `sub_dbs` relations); the
on-disk databases a run starts from are the `disk` association list, opened
lazily exactly as `process_dbpath` opens connections.  SQL statements are
modelled at the relation level here (all interpolated values in these runs
are quote-free; the text-level model above shows when that is valid). -/

/-- Python `str.startswith`. -/
def strStarts (s pre : String) : Bool := pre.data.isPrefixOf s.data

/-- Python slice `s[n:]`. -/
def strDrop (s : String) (n : Nat) : String := String.mk (s.data.drop n)

/-- Python `os.path.dirname` for the relative, `/`-separated paths the
program handles: the text before the last slash, empty when there is none. -/
def dirname (s : String) : String :=
  match (s.data.reverse).dropWhile (fun c => c ≠ sl) with
  | [] => ""
  | _ :: rest => String.mk rest.reverse

/-- One directory of the modelled filesystem: its absolute path and its
regular files as `(name, size, digest)`. -/
structure FSDir where
  path : String
  files : List (String × Nat × String)
deriving Repr, DecidableEq, Inhabited

/-- The filesystem in `os.walk` order (each parent before its subtree). -/
abbrev FS := List FSDir

/-- `os.path.isfile`. -/
def isfile (fs : FS) (p : String) : Bool :=
  fs.any (fun d => d.files.any (fun f => d.path ++ "/" ++ f.1 == p))

/-- `os.stat(...).st_size` together with the digest the fingerprint would
produce; `none` when the path does not exist (the Python call would raise). -/
def statFile (fs : FS) (p : String) : Option (Nat × String) :=
  fs.findSome? (fun d => d.files.findSome?
    (fun f => if d.path ++ "/" ++ f.1 == p then some f.2 else none))

/-- Whether directory `d` equals `base` or lies in its real subtree (the
boundary-aware test `os.walk`'s recursion implements, unlike the engine's
`str.startswith` checks). -/
def underDirB (d base : String) : Bool := d == base || strStarts d (base ++ "/")

/-- Whether a directory hosts a catalog database file. -/
def dirHasDb (d : FSDir) (dbname : String) : Bool := d.files.any (fun f => f.1 == dbname)

/-- Insertion-ordered dictionary lookup. -/
def getAL {α : Type} (al : List (String × α)) (k : String) : Option α :=
  (al.find? (fun p => p.1 == k)).map (fun p => p.2)

/-- Insertion-ordered dictionary update (`d[k] = v`): overwrite in place or
append a new key. -/
def setAL {α : Type} (al : List (String × α)) (k : String) (v : α) : List (String × α) :=
  if al.any (fun p => p.1 == k) then
    al.map (fun p => if p.1 == k then (k, v) else p)
  else al ++ [(k, v)]

/-- `d.setdefault(k, []).append(v)`: the accumulation idiom the program uses
for `all_files`, `new_files` and `missing_files`. -/
def pushAL {α : Type} (al : List (String × List α)) (k : String) (v : α) :
    List (String × List α) :=
  match getAL al k with
  | some l => setAL al k (l ++ [v])
  | none => al ++ [(k, [v])]

/-- `all_files` / `new_files`: owning root → the walked `(dir, filename)`
pairs (the `(root, [], [f])` triples of the program). -/
abbrev AllFiles := List (String × List (String × String))

/-- The recursive `find_files` closure of `update_paths` (src/dirdb.py lines
278-293): walk `dbpath`; on reaching a different directory that hosts a
database file, prune the walk there (`dirs[:] = []`) and recurse with that
directory as a new owning key; otherwise append every file (the database file
included) to `all_files[dbpath]`, skipping the would-be output script.  Fuel
bounds the nesting depth. -/
def findFilesGo (fs : FS) (dbname scriptPath : String) :
    Nat → String → List FSDir → AllFiles → AllFiles
  | 0, _, _, al => al
  | fuel + 1, dbpath, dirs, al =>
    match dirs with
    | [] => al
    | d :: rest =>
      if d.path != dbpath && dirHasDb d dbname then
        let al2 := findFilesGo fs dbname scriptPath fuel d.path
          (fs.filter (fun e => underDirB e.path d.path)) al
        findFilesGo fs dbname scriptPath fuel dbpath
          (rest.filter (fun e => !underDirB e.path d.path)) al2
      else
        let al2 := d.files.foldl
          (fun a f => if d.path ++ "/" ++ f.1 == scriptPath then a
                      else pushAL a dbpath (d.path, f.1)) al
        findFilesGo fs dbname scriptPath fuel dbpath rest al2

/-- The gather loop of `update_paths` over all update roots, sharing one
`all_files` dictionary. -/
def buildAllFiles (fs : FS) (dbname scriptPath : String) (roots : List String) : AllFiles :=
  roots.foldl
    (fun al r => findFilesGo fs dbname scriptPath ((fs.length + 1) * (fs.length + 1)) r
      (fs.filter (fun e => underDirB e.path r)) al) []

/-- `os.walk(root_dir)` as `process_dbpath` uses it when called without a
file list (no nested-catalog pruning); only reached when no file was found
anywhere. -/
def walkFilesNoPrune (fs : FS) (root : String) : List (String × String) :=
  (fs.filter (fun d => underDirB d.path root)).foldl
    (fun a d => a ++ d.files.map (fun f => (d.path, f.1))) []

/-- The log lines the engine prints that the claims talk about. -/
inductive LogMsg where
  | creating (dbpath : String)
  | adding (relpath dbpath : String)
  | removedDb (marker : String)
  | willRemove (relpath subdb : String)
  | missingFile (fpath : String)
  | sizeDiffers (fsize esize : Nat)
  | moved (fpath : String) (candidates : List String)
  | removed (relpath : String)
deriving Repr, DecidableEq, Inhabited

/-- One catalog database: its `files` and `sub_dbs` relations. -/
structure DB where
  files : Store
  sub_dbs : List String
deriving Repr, DecidableEq, Inhabited

/-- The mutable state of one `update_paths` run: the open connections
(`dbs`/`cursors`), the globals `missing_files` and `new_files`, the log, and
instrumentation recording every row actually inserted into or deleted from a
`files` relation and every deleted sub-db marker. -/
structure EngineState where
  dbs : List (String × DB)
  missing : List (String × List FileRecord)
  newFiles : AllFiles
  inserted : List (String × FileRecord)
  deletedRecs : List (String × FileRecord)
  deletedMarkers : List (String × String)
  logs : List LogMsg
deriving Repr, DecidableEq, Inhabited

/-- The record built by the ingestion branch (src/dirdb.py lines 149-165):
one digest column gets the computed digest, the other the interpolated text
`None` (see `parseInsert_insertSQL` / `C4_one_digest_other_is_None_text` for
the text-level justification). -/
def insertedRecordEngine (partial_hash : Bool) (f relpath : String) (fsize : Nat)
    (digest : String) : FileRecord :=
  if partial_hash then ⟨f, relpath, fsize, some (pyStr none), some (pyStr (some digest))⟩
  else ⟨f, relpath, fsize, some (pyStr (some digest)), some (pyStr none)⟩

/-- The body of the file loop of `process_dbpath` (src/dirdb.py lines
106-165) for one walked `(root, filename)` pair: skip the database file;
query the store by size and skip on a relpath match; otherwise record the
file in `new_files` (when the caller passed the dictionary) and, unless
gathering only, hash and insert. -/
def engineFileStep (partial_hash : Bool) (fs : FS) (dbname : String)
    (gatherOnly collectNew : Bool) (path : String)
    (st : EngineState) (rf : String × String) : EngineState :=
  let root := rf.1
  let f := rf.2
  if f == dbname then st
  else
    let fpath := root ++ "/" ++ f
    let relpath := strDrop fpath (path.length + 1)
    match statFile fs fpath with
    | none => st
    | some sd =>
      let fsize := sd.1
      let db := (getAL st.dbs path).getD default
      let sameSize := db.files.filter (fun r => r.size == fsize)
      if sameSize.any (fun r => r.relpath == relpath) then st
      else
        let st := if collectNew then { st with newFiles := pushAL st.newFiles path (root, f) }
                  else st
        if gatherOnly then st
        else
          let rec0 := insertedRecordEngine partial_hash f relpath fsize sd.2
          { st with
            dbs := setAL st.dbs path { db with files := db.files ++ [rec0] },
            inserted := st.inserted ++ [(path, rec0)],
            logs := st.logs ++ [LogMsg.adding relpath path] }

/-- The tail loop of `process_dbpath` over the fetched `files` snapshot
(src/dirdb.py lines 181-213): delete rows whose on-disk path starts — as a
plain string prefix — with another discovered catalog root; collect rows
whose file no longer exists into `missing_files`; log size mismatches. -/
def engineTailStep (fs : FS) (allKeys : List String) (path : String)
    (st : EngineState) (entry : FileRecord) : EngineState :=
  let fpath := path ++ "/" ++ entry.relpath
  let delKeys := allKeys.filter (fun k => !strStarts path k && strStarts fpath k)
  let st :=
    if delKeys.isEmpty then st
    else
      let db := (getAL st.dbs path).getD default
      let really := db.files.any (fun r => r.relpath == entry.relpath)
      { st with
        dbs := setAL st.dbs path
          { db with files := db.files.filter (fun r => r.relpath ≠ entry.relpath) },
        deletedRecs := st.deletedRecs ++ (if really then [(path, entry)] else []),
        logs := st.logs ++ delKeys.map (fun k => LogMsg.willRemove entry.relpath k) }
  if !isfile fs fpath then
    { st with
      missing := pushAL st.missing path entry,
      logs := st.logs ++ [LogMsg.missingFile fpath] }
  else
    match statFile fs fpath with
    | some sd =>
      if entry.size ≠ sd.1 then { st with logs := st.logs ++ [LogMsg.sizeDiffers sd.1 entry.size] }
      else st
    | none => st

/-- `process_dbpath` (src/dirdb.py lines 51-213): open or create the store,
run the file loop over the supplied walk list, prune dead sub-db markers,
then run the tail loop over the `files` snapshot. -/
def process_dbpath (partial_hash : Bool) (fs : FS) (dbname : String)
    (disk : List (String × DB)) (allKeys : List String)
    (gatherOnly collectNew : Bool) (filelist : List (String × String))
    (path : String) (st : EngineState) : EngineState :=
  let dbfile := path ++ "/" ++ dbname
  let st := if !isfile fs dbfile then { st with logs := st.logs ++ [LogMsg.creating dbfile] }
            else st
  let st := match getAL st.dbs path with
    | some _ => st
    | none => { st with dbs := st.dbs ++ [(path, (getAL disk path).getD ⟨[], []⟩)] }
  let st := filelist.foldl (engineFileStep partial_hash fs dbname gatherOnly collectNew path) st
  let db := (getAL st.dbs path).getD default
  let deadMarkers := db.sub_dbs.filter (fun m => !isfile fs m)
  let st :=
    { st with
      dbs := setAL st.dbs path { db with sub_dbs := db.sub_dbs.filter (fun m => isfile fs m) },
      deletedMarkers := st.deletedMarkers ++ deadMarkers.map (fun m => (path, m)),
      logs := st.logs ++ deadMarkers.map LogMsg.removedDb }
  let snapshot := ((getAL st.dbs path).getD default).files
  snapshot.foldl (engineTailStep fs allKeys path) st

/-- The missing-file advisory and deletion loop of `update_paths`
(src/dirdb.py lines 320-335): for each missing record, print a "moved" line
for **every** open store — whatever its same-size candidates are — and set
`found` unconditionally, so "removed" is printed only when no store is open;
then delete the record by relpath. -/
def reportMissingStep (dbpath : String) (st : EngineState) (entry : FileRecord) :
    EngineState :=
  let movedLogs := st.dbs.map (fun kv =>
    LogMsg.moved (dbpath ++ "/" ++ entry.relpath)
      (((kv.2.files.filter (fun r => r.size == entry.size)).map (fun r => r.relpath))))
  let found := !st.dbs.isEmpty
  let logsAdd := movedLogs ++ (if found then [] else [LogMsg.removed entry.relpath])
  let db := (getAL st.dbs dbpath).getD default
  let really := db.files.any (fun r => r.relpath == entry.relpath)
  { st with
    logs := st.logs ++ logsAdd,
    dbs := setAL st.dbs dbpath
      { db with files := db.files.filter (fun r => r.relpath ≠ entry.relpath) },
    deletedRecs := st.deletedRecs ++ (if really then [(dbpath, entry)] else []) }

/-- `update_paths` (src/dirdb.py lines 271-359): gather `all_files`, run the
gather pass of `process_dbpath` over every discovered owning root (or over
the given roots when nothing was found), run the ingestion pass over the
roots with new files, then run the missing-file advisory/deletion loop. -/
def update_paths (partial_hash : Bool) (fs : FS) (dbname scriptPath : String)
    (roots : List String) (disk : List (String × DB)) : EngineState :=
  let all := buildAllFiles fs dbname scriptPath roots
  let allKeys := all.map (fun p => p.1)
  let st0 : EngineState := default
  let st1 :=
    if all.isEmpty then
      roots.foldl
        (fun st r => process_dbpath partial_hash fs dbname disk allKeys true true
          (walkFilesNoPrune fs r) r st) st0
    else
      all.foldl
        (fun st kv => process_dbpath partial_hash fs dbname disk allKeys true true
          kv.2 kv.1 st) st0
  let st2 := st1.newFiles.foldl
    (fun st kv => process_dbpath partial_hash fs dbname disk allKeys false false
      kv.2 kv.1 st) st1
  st2.missing.foldl (fun st kv => kv.2.foldl (reportMissingStep kv.1) st) st2

/-! ## Claim C3 (SubCatalogMarkers)

No statement in src/dirdb.py ever inserts into `sub_dbs`: the only statements
touching that relation are the CREATE TABLE (line 92), a SELECT (line 169)
and a DELETE (lines 175-177).  So when a nested catalog is discovered, no
SubCatalogMarker is created — only the dead-marker pruning and the (string-
prefix based) reclaim of the parent's records exist.  Scenario: parent `/p`
holds a record for `sub/f`; a catalog `/p/sub/.dir.db` has appeared. -/

/-- The filesystem of the nested-catalog scenario. -/
def C3fs : FS := [⟨"/p", [(".dir.db", 0, "")]⟩, ⟨"/p/sub", [(".dir.db", 0, ""), ("f", 3, "dd")]⟩]

/-- The on-disk stores before the run: the parent still owns `sub/f`. -/
def C3disk : List (String × DB) :=
  [("/p", ⟨[⟨"f", "sub/f", 3, some "None", some "dd"⟩], []⟩)]

/-- The reconciliation run over the scenario. -/
def C3run : EngineState := update_paths true C3fs ".dir.db" "" ["/p"] C3disk

/-- C3: after reconciling a tree in which the nested catalog `/p/sub` was
discovered (its store even receives the record for `f`), the parent store
holds no record under `sub/` — but its `sub_dbs` relation is still empty: no
SubCatalogMarker was inserted, because the program contains no INSERT into
`sub_dbs` at all.  The claim's "a SubCatalogMarker for its relative path is
inserted" is false of the code. -/
theorem C3_no_subcatalog_marker_inserted :
    ((getAL C3run.dbs "/p").getD default).sub_dbs = [] ∧
    ((getAL C3run.dbs "/p").getD default).files = [] ∧
    ((getAL C3run.dbs "/p/sub").getD default).files
      = [⟨"f", "f", 3, some "None", some "dd"⟩] := by
  decide

/-! ## Claim C5 (missing-file advisories)

In the advisory loop (src/dirdb.py lines 320-335) `found = True` is executed
unconditionally for every open store, and the "moved" print is likewise
unconditional — it happens once per open store even when that store has no
same-size rows (an empty candidate list).  "removed" is therefore dead code
whenever at least one store is open, which is always the case (the missing
record's own store is open).  Scenario: store `/r` holds record `x` (size 5)
whose file is gone; a second store `/s` is open and empty. -/

/-- The filesystem of the vanished-file scenario: both databases exist, the
file `x` does not. -/
def C5fs : FS := [⟨"/r", [(".dir.db", 0, "")]⟩, ⟨"/s", [(".dir.db", 0, "")]⟩]

/-- The on-disk stores before the run. -/
def C5disk : List (String × DB) :=
  [("/r", ⟨[⟨"x", "x", 5, some "None", some "aa"⟩], []⟩), ("/s", ⟨[], []⟩)]

/-- The reconciliation run over the scenario. -/
def C5run : EngineState := update_paths true C5fs ".dir.db" "" ["/r", "/s"] C5disk

/-- Whether a log line is the "removed" advisory. -/
def isRemovedLog : LogMsg → Bool
  | LogMsg.removed _ => true
  | _ => false

/-- C5: the record is deleted, but the advisories diverge from the claim: a
"moved" line is printed for every open store — including `moved "/r/x" []`
from the empty store `/s`, naming no candidate relocation — and no "removed"
advisory is ever printed even though no other record of size 5 exists
anywhere (the only candidate the first "moved" line names is the missing
record itself). -/
theorem C5_advisories_diverge :
    C5run.logs = [LogMsg.missingFile "/r/x", LogMsg.moved "/r/x" ["x"],
      LogMsg.moved "/r/x" []] ∧
    C5run.logs.all (fun m => !isRemovedLog m) = true ∧
    ((getAL C5run.dbs "/r").getD default).files = [] := by
  decide

/-! ## Claim C8 (idempotence of reconciliation)

The sub-catalog reclaim test `fpath.startswith(sub_db)` (line 190) is a plain
string-prefix test with no `/` boundary.  With a nested catalog at `/a/subx`
and a sibling directory `/a/subxy`, the parent's record for `subxy/f` string-
starts with `/a/subx`, so every run first inserts it (no record matches in
the gather pass) and then deletes it again in the same run's tail loop.  The
second run over the unchanged tree therefore inserts and deletes a
FileRecord, refuting idempotence; the code's own log line says the file
"belongs to sub DB /a/subx", which is false. -/

/-- The filesystem of the prefix-collision scenario. -/
def C8fs : FS := [⟨"/a", [(".dir.db", 0, "")]⟩, ⟨"/a/subx", [(".dir.db", 0, "")]⟩,
  ⟨"/a/subxy", [("f", 2, "dg")]⟩]

/-- The first reconciliation run, from empty stores. -/
def C8run1 : EngineState := update_paths true C8fs ".dir.db" "" ["/a"] []

/-- The second reconciliation run, over the unchanged tree, starting from the
stores the first run left behind. -/
def C8run2 : EngineState := update_paths true C8fs ".dir.db" "" ["/a"] C8run1.dbs

/-- C8: the second run over the unchanged tree inserts a new FileRecord
(`subxy/f` again, since the first run ended with it deleted) and deletes a
FileRecord, refuting the claim that a second run inserts nothing and deletes
nothing. -/
theorem C8_second_run_inserts_and_deletes :
    C8run2.inserted = [("/a", ⟨"f", "subxy/f", 2, some "None", some "dg"⟩)] ∧
    C8run2.deletedRecs = [("/a", ⟨"f", "subxy/f", 2, some "None", some "dg"⟩)] ∧
    C8run2.inserted ≠ [] ∧ C8run2.deletedRecs ≠ [] := by
  decide

/-! ## The sync planner (`gen_sync_script`, src/dirdb.py lines 361-567)

The open source and destination catalogs are given as insertion-ordered
dictionaries cursor-path → store.  Every `f.write` to the script file is
recorded as a `Chunk`; `render` gives the exact text written, so the file
content is the concatenation of the rendered chunks.  `pdb.set_trace()`
calls are recorded as `PdbSite` events.  The `IndexError` the 1:1 branch can
raise (picking `[0]` of the first dictionary entry's row list) and the
`NameError` of the leaked `l_entry` loop abort the run: the model returns
`none` there. -/

/-- The dictionaries of open cursors, in insertion (discovery) order. -/
abbrev DbMap := List (String × Store)

/-- One `f.write` of the planner. -/
inductive Chunk where
  | header
  | cdBack (fromDir : String)
  | cdInto (dbpath : String)
  | cdFinal (fromDir : String)
  | mkdirC (d : String)
  | mvC (dst src : String)
  | cpC (srcOfCopy dstOfCopy : String)
  | missingC (relpath : String)
deriving Repr, DecidableEq, Inhabited

/-- The exact text each chunk writes to the script file. -/
def render : Chunk → String
  | Chunk.header => "#! /bin/sh -e\n\n"
  | Chunk.cdBack s => "\ncd \"$\x7bOLDPWD\x7d\" # from " ++ s ++ "\n"
  | Chunk.cdInto p => "OLDPWD=\"$(pwd)\"; cd \"" ++ p ++ "\"\n\n"
  | Chunk.cdFinal s => "cd \"$\x7bOLDPWD\x7d\" # from " ++ s ++ "\n"
  | Chunk.mkdirC d => "mkdir $\x7bMKDIRFLAGS\x7d -p \"" ++ d ++ "\"\n"
  | Chunk.mvC dst src => "mv $\x7bMVFLAGS\x7d \"" ++ dst ++ "\" \"" ++ src ++ "\"\n"
  | Chunk.cpC r l => "cp $\x7bCPFLAGS\x7d --reflink \"" ++ r ++ "\" \"" ++ l ++ "\"\n"
  | Chunk.missingC rel => "# missing on destination: \"" ++ rel ++ "\"\n"

/-- The `pdb.set_trace()` sites of the planner. -/
inductive PdbSite where
  | lZero
  | unmatchedL
  | unmatchedR
  | leakedL
  | notFound
deriving Repr, DecidableEq, Inhabited

/-- The planner's mutable state: the chunks written so far, the memoized
`mkdirs` list, the byte counter, the action counter, the `done` list of
already-processed parthash values, and the debugger events hit. -/
structure PlanState where
  script : List Chunk
  mkdirs : List String
  transfer_bytes : Nat
  n_actions : Nat
  done : List (Option String)
  events : List PdbSite
deriving Repr, DecidableEq, Inhabited

/-- The per-database row sets of
`SELECT * FROM files WHERE size == {size} AND parthash == '{ph}'` executed
against every open database of a dictionary (src/dirdb.py lines 413-425);
`ph` is the interpolated text, so a NULL column never matches and the text
`None` matches records stored in full-hash mode. -/
def selectFP (dbs : DbMap) (sz : Nat) (ph : String) : List (String × Store) :=
  dbs.map (fun p => (p.1, p.2.filter (fun r => r.size == sz && r.parthash == some ph)))

/-- Total number of rows across the per-database row sets (`l_num`/`r_num`). -/
def rowCount (g : List (String × Store)) : Nat :=
  g.foldl (fun a p => a + p.2.length) 0

/-- `sql_dup_entries[list(sql_dup_entries.keys())[0]][0]`: row 0 of the FIRST
dictionary entry — an IndexError (`none`) when the first database has no
matching row. -/
def firstGroupFirstRow (g : List (String × Store)) : Option FileRecord :=
  match g with
  | [] => none
  | (_, rows) :: _ => rows.head?

/-- A row of the many-to-many working dictionaries, with its `matched` flag. -/
structure MEntry where
  record : FileRecord
  matched : Bool
deriving Repr, DecidableEq, Inhabited

/-- The dict-copies `rem_dup_entries`/`dup_entries` built at lines 452-468:
every row unmatched. -/
def toM (g : List (String × Store)) : List (String × List MEntry) :=
  g.map (fun p => (p.1, p.2.map (fun r => ⟨r, false⟩)))

/-- Mark the first row (matched or not) with the given relpath across the
remote groups, as the path-identity pass does; `none` if no row has it. -/
def markRowsRel (rel : String) : List MEntry → Option (List MEntry)
  | [] => none
  | r :: rs =>
    if r.record.relpath == rel then some (⟨r.record, true⟩ :: rs)
    else (markRowsRel rel rs).map (fun l => r :: l)

/-- Group-level version of `markRowsRel`. -/
def markFirstRel (rel : String) : List (String × List MEntry) → Option (List (String × List MEntry))
  | [] => none
  | (k, rows) :: rest =>
    match markRowsRel rel rows with
    | some rows2 => some ((k, rows2) :: rest)
    | none => (markFirstRel rel rest).map (fun l => (k, rows) :: l)

/-- Find (and mark) the first still-unmatched row, as the move pass does;
returns its relpath. -/
def takeRowsUnmatched : List MEntry → Option (String × List MEntry)
  | [] => none
  | r :: rs =>
    if r.matched then (takeRowsUnmatched rs).map (fun p => (p.1, r :: p.2))
    else some (r.record.relpath, ⟨r.record, true⟩ :: rs)

/-- Group-level version of `takeRowsUnmatched`. -/
def markFirstUnmatched :
    List (String × List MEntry) → Option (String × List (String × List MEntry))
  | [] => none
  | (k, rows) :: rest =>
    match takeRowsUnmatched rows with
    | some p => some (p.1, (k, p.2) :: rest)
    | none => (markFirstUnmatched rest).map (fun p => (p.1, (k, rows) :: p.2))

/-- The relpath of the first row of the first nonempty group — what the
reflink pass picks (it does not mark the row). -/
def firstAnyR : List (String × List MEntry) → Option String
  | [] => none
  | (_, []) :: rest => firstAnyR rest
  | (_, r :: _) :: _ => some r.record.relpath

/-- The memoized `mkdir -p` emission (`if mkdir not in mkdirs`). -/
def emitMkdir (mkdirs : List String) (chunks : List Chunk) (d : String) :
    List String × List Chunk :=
  if mkdirs.contains d then (mkdirs, chunks)
  else (mkdirs ++ [d], chunks ++ [Chunk.mkdirC d])

/-- The threaded state of the many-to-many passes. -/
structure M2MState where
  rems : List (String × List MEntry)
  mkdirs : List String
  chunks : List Chunk
  nActions : Nat
  found : Bool
  events : List PdbSite
deriving Repr, DecidableEq, Inhabited

/-- The path-identity pass for one source row (src/dirdb.py lines 470-483):
if some destination row shares its relpath, mark both (and note when the
iterated entry itself got matched). -/
def passARow (dbpath entryRel l_dbpath : String) (s : M2MState) (l : MEntry) :
    MEntry × M2MState :=
  match markFirstRel l.record.relpath s.rems with
  | some rems2 =>
    (⟨l.record, true⟩,
     { s with rems := rems2,
              found := s.found || (l_dbpath == dbpath && l.record.relpath == entryRel) })
  | none => (l, s)

/-- The move/reflink passes for one source row (src/dirdb.py lines 485-536):
skip matched rows; move from the first unmatched destination row, else
reflink-copy from the first destination row of any group; a row left
unmatched with destinations present is a debugger hit. -/
def passBCRow (dbpath entryRel : String) (r_num : Nat) (l_dbpath : String)
    (s : M2MState) (l : MEntry) : MEntry × M2MState :=
  if l.matched then (l, s)
  else
    match markFirstUnmatched s.rems with
    | some p =>
      let mk2 := emitMkdir s.mkdirs s.chunks (dirname l.record.relpath)
      (⟨l.record, true⟩,
       { s with rems := p.2, mkdirs := mk2.1,
                chunks := mk2.2 ++ [Chunk.mvC p.1 l.record.relpath],
                nActions := s.nActions + 1,
                found := s.found || (l_dbpath == dbpath && l.record.relpath == entryRel) })
    | none =>
      match firstAnyR s.rems with
      | some rrel =>
        let mk2 := emitMkdir s.mkdirs s.chunks (dirname l.record.relpath)
        (⟨l.record, true⟩,
         { s with mkdirs := mk2.1,
                  chunks := mk2.2 ++ [Chunk.cpC rrel l.record.relpath],
                  nActions := s.nActions + 1,
                  found := s.found || (l_dbpath == dbpath && l.record.relpath == entryRel) })
      | none =>
        (l, if r_num > 0 then { s with events := s.events ++ [PdbSite.unmatchedL] } else s)

/-- A pass applied to every row of one group, threading the state. -/
def passRows (step : M2MState → MEntry → MEntry × M2MState) :
    List MEntry → M2MState → List MEntry × M2MState
  | [], s => ([], s)
  | l :: ls, s =>
    let p := step s l
    let q := passRows step ls p.2
    (p.1 :: q.1, q.2)

/-- A pass applied to every group. -/
def passGroups (step : String → M2MState → MEntry → MEntry × M2MState) :
    List (String × List MEntry) → M2MState → List (String × List MEntry) × M2MState
  | [], s => ([], s)
  | (k, rows) :: rest, s =>
    let p := passRows (step k) rows s
    let q := passGroups step rest p.2
    ((k, p.1) :: q.1, q.2)

/-- All rows of the grouped dictionaries in iteration order. -/
def flatRows (g : List (String × List MEntry)) : List MEntry :=
  g.foldl (fun a p => a ++ p.2) []

/-- The leftover destination-row check (src/dirdb.py lines 538-544): one
debugger hit per still-unmatched destination row. -/
def unmatchedREvents (g : List (String × List MEntry)) : List PdbSite :=
  (flatRows g).foldl (fun a r => if r.matched then a else a ++ [PdbSite.unmatchedR]) []

/-- The whole many-to-many branch (src/dirdb.py lines 452-552), starting from
the planner state `st`; `none` models the NameError of the loop at lines
546-549 when no `l_entry` was ever bound. -/
def m2mRun (dbpath : String) (entry : FileRecord) (lsel rsel : List (String × Store))
    (r_num : Nat) (st : PlanState) : Option PlanState :=
  let dups0 := toM lsel
  let rems0 := toM rsel
  let s0 : M2MState := ⟨rems0, st.mkdirs, [], 0, false, []⟩
  let pa := passGroups (passARow dbpath entry.relpath) dups0 s0
  let pb := passGroups (passBCRow dbpath entry.relpath r_num) pa.1 pa.2
  let dups := pb.1
  let s := pb.2
  let ev1 := s.events ++ unmatchedREvents s.rems
  match (flatRows dups).getLast? with
  | none =>
    if dups.isEmpty then
      some { st with mkdirs := s.mkdirs, script := st.script ++ s.chunks,
                     n_actions := st.n_actions + s.nActions,
                     events := st.events ++ ev1
                       ++ (if !s.found && r_num > 0 then [PdbSite.notFound] else []) }
    else none
  | some lastL =>
    let ev2 := ev1 ++ (if !lastL.matched && r_num > 0 then dups.map (fun _ => PdbSite.leakedL)
                       else [])
    some { st with mkdirs := s.mkdirs, script := st.script ++ s.chunks,
                   n_actions := st.n_actions + s.nActions,
                   events := st.events ++ ev2
                     ++ (if !s.found && r_num > 0 then [PdbSite.notFound] else []) }

/-- Processing of one source record (src/dirdb.py lines 403-552): the
`done`-list dedup guard, the fingerprint queries, then the 1:1 move branch
(whose misplaced empty-dirname `continue` skips the `mv` for top-level
relpaths), the `l = 0` debugger check, the missing-on-destination branch, or
the many-to-many branch. -/
def processEntry (src_dbs dst_dbs : DbMap) (dbpath : String) (entry : FileRecord)
    (st : PlanState) : Option PlanState :=
  if st.done.contains entry.parthash then some st
  else
    let lsel := selectFP src_dbs entry.size (pyStr entry.parthash)
    let rsel := selectFP dst_dbs entry.size (pyStr entry.parthash)
    let l_num := rowCount lsel
    let r_num := rowCount rsel
    let st := { st with done := st.done ++ [entry.parthash] }
    if l_num == 1 && r_num == 1 then
      match firstGroupFirstRow lsel, firstGroupFirstRow rsel with
      | some src, some dst =>
        if src.relpath != dst.relpath then
          let mk := dirname src.relpath
          if mk == "" then some st
          else
            let e := emitMkdir st.mkdirs st.script mk
            some { st with mkdirs := e.1,
                           script := e.2 ++ [Chunk.mvC dst.relpath src.relpath],
                           n_actions := st.n_actions + 1 }
        else some st
      | _, _ => none
    else
      let st := if l_num == 0 then { st with events := st.events ++ [PdbSite.lZero] } else st
      if r_num == 0 then
        some { st with script := st.script ++ [Chunk.missingC entry.relpath],
                       transfer_bytes := st.transfer_bytes + entry.size }
      else m2mRun dbpath entry lsel rsel r_num st

/-- The entry loop over one source database's rows. -/
def entriesLoop (src_dbs dst_dbs : DbMap) (dbpath : String) :
    List FileRecord → PlanState → Option PlanState
  | [], st => some st
  | e :: es, st => (processEntry src_dbs dst_dbs dbpath e st).bind
      (entriesLoop src_dbs dst_dbs dbpath es)

/-- The loop over the source databases (src/dirdb.py lines 393-400 and
554-555), with its `cd` bookkeeping; each database contributes its rows with
`size > 0` in order. -/
def dbLoop (src_dbs dst_dbs : DbMap) :
    List (String × Store) → Option String → PlanState → Option PlanState
  | [], subdir, st =>
    some (match subdir with
          | some s => { st with script := st.script ++ [Chunk.cdFinal s] }
          | none => st)
  | (p, store) :: rest, subdir, st =>
    let st := match subdir with
      | some s => { st with script := st.script ++ [Chunk.cdBack s, Chunk.cdInto p] }
      | none => { st with script := st.script ++ [Chunk.cdInto p] }
    (entriesLoop src_dbs dst_dbs p (store.filter (fun r => 0 < r.size)) st).bind
      (dbLoop src_dbs dst_dbs rest (some p))

/-- `gen_sync_script` over already-opened catalog dictionaries: the chunk
trace and final counters, or `none` when the run aborts in the debugger's
exception paths. -/
def gen_sync_script (src_dbs dst_dbs : DbMap) : Option PlanState :=
  dbLoop src_dbs dst_dbs src_dbs none ⟨[Chunk.header], [], 0, 0, [], []⟩

/-- The unit table of the final report (src/dirdb.py line 561). -/
def units : List String := ["B", "KB", "MB", "GB", "TB"]

/-- The unit index the final loop picks (src/dirdb.py lines 562-564): the
first `u` with `transfer_bytes < 1000^(u+1)`, else 4. -/
def displayUnitIdx (transfer_bytes : Nat) : Nat :=
  ((List.range 5).find? (fun u => transfer_bytes < 1000 ^ (u + 1))).getD 4

/-- The displayed value (src/dirdb.py line 565), `int(tb / 1000**u)`; for
counters below 2^53 Python's float division followed by `int` equals this
floor division. -/
def display_value (transfer_bytes : Nat) : Nat :=
  transfer_bytes / 1000 ^ displayUnitIdx transfer_bytes

/-! ## Claim C2 (1:1 rename)

In the `l = 1 ∧ r = 1` branch (src/dirdb.py lines 429-444) the guard
`if not mkdir: continue` sits *before* the `mv` write, so whenever the source
relpath is top-level (`os.path.dirname` empty) the whole action is skipped —
no `mv` is emitted.  The spec's normative "pure rename" scenario is exactly
that case. -/

/-- The source catalog of the pure-rename scenario. -/
def C2src : DbMap := [("src", [⟨"a.txt", "a.txt", 10, some "None", some "aabb"⟩])]

/-- The destination catalog of the pure-rename scenario. -/
def C2dst : DbMap := [("dst", [⟨"b.txt", "b.txt", 10, some "None", some "aabb"⟩])]

/-- The chunks the run writes. -/
def C2chunks : List Chunk := [Chunk.header, Chunk.cdInto "src", Chunk.cdFinal "src"]

/-- C2: on the claim's own scenario (single source record `a.txt`, single
destination record `b.txt`, same size 10 and parthash, differing relpaths)
the emitted script consists of the shebang and the `cd` lines only: no
`mv "b.txt" "a.txt"` line (and no `cp` and no action at all) is written,
because `dirname("a.txt")` is empty and the misplaced `continue` at lines
435-436 skips the move.  The claim is false of the code. -/
theorem C2_pure_rename_emits_no_mv :
    gen_sync_script C2src C2dst = some ⟨C2chunks, [], 0, 0, [some "aabb"], []⟩ ∧
    Chunk.mvC "b.txt" "a.txt" ∉ C2chunks ∧
    render (Chunk.mvC "b.txt" "a.txt") = "mv $\x7bMVFLAGS\x7d \"b.txt\" \"a.txt\"\n" ∧
    (C2chunks.map render).all
      (fun s => !(strStarts s "mv") && !(strStarts s "cp")) = true := by
  decide

/-! ## Claim C7 (`l = 0` unreachable)

The iterated source record always matches its own fingerprint query: for
records this program produced, `parthash` is a stored TEXT value (an md5 hex
digest, or the text `None` in full-hash mode), so the interpolated query
`size == {e.size} AND parthash == '{e.parthash}'` is the plain filter
modelled by `selectFP` and the record itself is in its own database's row
set. -/

/-- A parthash value as this program stores it: a lower-case md5 hex digest
(partial mode) or the text `None` (full mode).  Either way it contains no SQL
metacharacter, which is what lets the interpolated query be read as the
`selectFP` filter. -/
def ProducedDigest (s : String) : Prop :=
  (s.data ≠ [] ∧ ∀ c ∈ s.data, c.isDigit = true ∨ (97 ≤ c.toNat ∧ c.toNat ≤ 102))
    ∨ s = "None"

instance (s : String) : Decidable (ProducedDigest s) := by
  unfold ProducedDigest; infer_instance

theorem rowCount_cons (x : String × Store) (t : List (String × Store)) :
    rowCount (x :: t) = x.2.length + rowCount t := by
  show List.foldl _ (0 + x.2.length) t = _
  have aux : ∀ (l : List (String × Store)) (a : Nat),
      l.foldl (fun a p => a + p.2.length) a = a + l.foldl (fun a p => a + p.2.length) 0 := by
    intro l
    induction l with
    | nil => intro a; simp
    | cons y ys ih =>
      intro a
      simp only [List.foldl_cons]
      rw [ih (a + y.2.length), ih (0 + y.2.length)]
      omega
  rw [aux t (0 + x.2.length)]
  show _ = x.2.length + List.foldl _ 0 t
  omega

theorem rowCount_pos (g : List (String × Store)) (k : String) (rows : Store)
    (h : (k, rows) ∈ g) (hne : rows ≠ []) : 0 < rowCount g := by
  induction g with
  | nil => cases h
  | cons x t ih =>
    rw [rowCount_cons]
    rcases List.mem_cons.mp h with h1 | h1
    · subst h1
      have h2 : 0 < rows.length := List.length_pos.mpr hne
      show 0 < rows.length + rowCount t
      omega
    · have := ih h1
      omega

/-- C7: for every record `entry` of an open source catalog with positive size
and a program-produced parthash, the fingerprint query returns at least the
record itself, so `l_num` is positive and the `l_num == 0` debugger branch of
the planner (src/dirdb.py lines 445-446) is not taken for that record. -/
theorem C7_l_num_positive (src_dbs : DbMap) (dbpath : String) (store : Store)
    (entry : FileRecord) (p : String)
    (hdb : (dbpath, store) ∈ src_dbs) (hin : entry ∈ store)
    (hsz : 0 < entry.size) (hph : entry.parthash = some p)
    (hprod : ProducedDigest p) :
    0 < rowCount (selectFP src_dbs entry.size (pyStr entry.parthash)) := by
  have hpred : (entry.size == entry.size
      && entry.parthash == some (pyStr entry.parthash)) = true := by
    rw [hph]
    simp [pyStr]
  have hmem : entry ∈ store.filter
      (fun r => r.size == entry.size && r.parthash == some (pyStr entry.parthash)) :=
    List.mem_filter.mpr ⟨hin, hpred⟩
  have hgrp : (dbpath, store.filter
        (fun r => r.size == entry.size && r.parthash == some (pyStr entry.parthash)))
      ∈ selectFP src_dbs entry.size (pyStr entry.parthash) :=
    List.mem_map.mpr ⟨(dbpath, store), hdb, rfl⟩
  exact rowCount_pos _ _ _ hgrp (List.ne_nil_of_mem hmem)

/-! ### Invariants of one planner step

`isMissing` distinguishes the "missing on destination" comment chunks;
`isMissingEntry` restates, from the spec's description, the condition under
which the planner writes one (not the 1:1 branch, and no destination row).
The lemmas below show each entry changes the byte counter and the missing
comments exactly together, and never touches the `done` list except for the
single append after the guard. -/

/-- Whether a chunk is a "missing on destination" comment. -/
def isMissing : Chunk → Bool
  | Chunk.missingC _ => true
  | _ => false

/-- Modelled from the spec: a source record is reported missing exactly when
its fingerprint group is not a 1:1 match and has no destination rows. -/
def isMissingEntry (src_dbs dst_dbs : DbMap) (e : FileRecord) : Bool :=
  let l_num := rowCount (selectFP src_dbs e.size (pyStr e.parthash))
  let r_num := rowCount (selectFP dst_dbs e.size (pyStr e.parthash))
  !(l_num == 1 && r_num == 1) && r_num == 0

theorem emitMkdir_filter (m : List String) (c : List Chunk) (d : String) :
    ((emitMkdir m c d).2).filter isMissing = c.filter isMissing := by
  unfold emitMkdir
  split
  · rfl
  · simp [isMissing]

theorem passARow_chunks (a b k : String) (s : M2MState) (l : MEntry) :
    ((passARow a b k s l).2).chunks = s.chunks := by
  unfold passARow
  split <;> rfl

theorem passBCRow_filter (a b : String) (rn : Nat) (k : String) (s : M2MState) (l : MEntry) :
    (((passBCRow a b rn k s l).2).chunks).filter isMissing = (s.chunks).filter isMissing := by
  unfold passBCRow
  split
  · rfl
  · split
    · show ((emitMkdir s.mkdirs s.chunks (dirname l.record.relpath)).2
        ++ [Chunk.mvC _ l.record.relpath]).filter isMissing = _
      rw [List.filter_append, emitMkdir_filter]
      simp [isMissing]
    · split
      · show ((emitMkdir s.mkdirs s.chunks (dirname l.record.relpath)).2
          ++ [Chunk.cpC _ l.record.relpath]).filter isMissing = _
        rw [List.filter_append, emitMkdir_filter]
        simp [isMissing]
      · split <;> rfl

theorem passRows_filter (step : M2MState → MEntry → MEntry × M2MState)
    (hs : ∀ s l, (((step s l).2).chunks).filter isMissing = (s.chunks).filter isMissing) :
    ∀ (rows : List MEntry) (s : M2MState),
      (((passRows step rows s).2).chunks).filter isMissing = (s.chunks).filter isMissing := by
  intro rows
  induction rows with
  | nil => intro s; rfl
  | cons l ls ih =>
    intro s
    show (((passRows step ls (step s l).2).2).chunks).filter isMissing = _
    rw [ih ((step s l).2), hs s l]

theorem passGroups_filter (step : String → M2MState → MEntry → MEntry × M2MState)
    (hs : ∀ k s l, (((step k s l).2).chunks).filter isMissing = (s.chunks).filter isMissing) :
    ∀ (g : List (String × List MEntry)) (s : M2MState),
      (((passGroups step g s).2).chunks).filter isMissing = (s.chunks).filter isMissing := by
  intro g
  induction g with
  | nil => intro s; rfl
  | cons x t ih =>
    intro s
    show (((passGroups step t (passRows (step x.1) x.2 s).2).2).chunks).filter isMissing = _
    rw [ih _, passRows_filter (step x.1) (hs x.1) x.2 s]

theorem m2mRun_spec (p : String) (e : FileRecord) (lsel rsel : List (String × Store))
    (rn : Nat) (st st' : PlanState) (h : m2mRun p e lsel rsel rn st = some st') :
    st'.done = st.done ∧ st'.transfer_bytes = st.transfer_bytes ∧
    (st'.script).filter isMissing = (st.script).filter isMissing := by
  have hchunks : (((passGroups (passBCRow p e.relpath rn)
      ((passGroups (passARow p e.relpath) (toM lsel) ⟨toM rsel, st.mkdirs, [], 0, false, []⟩).1)
      ((passGroups (passARow p e.relpath) (toM lsel)
        ⟨toM rsel, st.mkdirs, [], 0, false, []⟩).2)).2).chunks).filter isMissing = [] := by
    rw [passGroups_filter _ (fun k s l => passBCRow_filter p e.relpath rn k s l),
        passGroups_filter _ (fun k s l => by rw [passARow_chunks])]
    rfl
  simp only [m2mRun] at h
  split at h
  · split at h
    · cases h
      refine ⟨rfl, rfl, ?_⟩
      show (st.script ++ _).filter isMissing = _
      rw [List.filter_append, hchunks, List.append_nil]
    · cases h
  · cases h
    refine ⟨rfl, rfl, ?_⟩
    show (st.script ++ _).filter isMissing = _
    rw [List.filter_append, hchunks, List.append_nil]

/-- What one entry does to the counters the accounting claims talk about:
either the dedup guard skips it and the state is untouched, or `done` grows
by its parthash and the byte counter and the missing-comment chunks grow
together — by `e.size` and one comment in the missing case, not at all
otherwise. -/
theorem processEntry_spec (src_dbs dst_dbs : DbMap) (p : String) (e : FileRecord)
    (st st' : PlanState) (h : processEntry src_dbs dst_dbs p e st = some st') :
    (st.done.contains e.parthash = true ∧ st' = st) ∨
    (st.done.contains e.parthash = false ∧ st'.done = st.done ++ [e.parthash] ∧
      ((isMissingEntry src_dbs dst_dbs e = true ∧
          st'.transfer_bytes = st.transfer_bytes + e.size ∧
          (st'.script).filter isMissing
            = (st.script).filter isMissing ++ [Chunk.missingC e.relpath]) ∨
       (isMissingEntry src_dbs dst_dbs e = false ∧
          st'.transfer_bytes = st.transfer_bytes ∧
          (st'.script).filter isMissing = (st.script).filter isMissing))) := by
  simp only [processEntry] at h
  by_cases hg : st.done.contains e.parthash
  · simp only [hg, if_true] at h
    cases h
    exact Or.inl ⟨hg, rfl⟩
  · simp only [hg, if_false, Bool.false_eq_true] at h
    refine Or.inr ⟨by simpa using hg, ?_⟩
    by_cases h11 : (rowCount (selectFP src_dbs e.size (pyStr e.parthash)) == 1
        && rowCount (selectFP dst_dbs e.size (pyStr e.parthash)) == 1)
    · simp only [h11, if_true] at h
      have hnm : isMissingEntry src_dbs dst_dbs e = false := by
        simp [isMissingEntry, h11]
      split at h
      · rename_i src0 dst0 heq1 heq2
        split at h
        · split at h
          · cases h
            exact ⟨rfl, Or.inr ⟨hnm, rfl, rfl⟩⟩
          · cases h
            refine ⟨rfl, Or.inr ⟨hnm, rfl, ?_⟩⟩
            show ((emitMkdir st.mkdirs st.script _).2 ++ [Chunk.mvC _ _]).filter isMissing = _
            rw [List.filter_append, emitMkdir_filter]
            simp [isMissing]
        · cases h
          exact ⟨rfl, Or.inr ⟨hnm, rfl, rfl⟩⟩
      · cases h
    · simp only [h11, if_false, Bool.false_eq_true] at h
      have h11f : (rowCount (selectFP src_dbs e.size (pyStr e.parthash)) == 1
          && rowCount (selectFP dst_dbs e.size (pyStr e.parthash)) == 1) = false := by
        simpa using h11
      have hm : isMissingEntry src_dbs dst_dbs e
          = (rowCount (selectFP dst_dbs e.size (pyStr e.parthash)) == 0) := by
        simp [isMissingEntry, h11f]
      by_cases hr0 : (rowCount (selectFP dst_dbs e.size (pyStr e.parthash)) == 0)
      · simp only [hr0, if_true] at h
        by_cases hl0 : (rowCount (selectFP src_dbs e.size (pyStr e.parthash)) == 0)
        · simp only [hl0, if_true] at h
          cases h
          refine ⟨rfl, Or.inl ⟨by rw [hm, hr0], rfl, ?_⟩⟩
          show (st.script ++ [Chunk.missingC e.relpath]).filter isMissing = _
          rw [List.filter_append]
          simp [isMissing]
        · simp only [hl0, if_false, Bool.false_eq_true] at h
          cases h
          refine ⟨rfl, Or.inl ⟨by rw [hm, hr0], rfl, ?_⟩⟩
          show (st.script ++ [Chunk.missingC e.relpath]).filter isMissing = _
          rw [List.filter_append]
          simp [isMissing]
      · simp only [hr0, if_false, Bool.false_eq_true] at h
        by_cases hl0 : (rowCount (selectFP src_dbs e.size (pyStr e.parthash)) == 0)
        · simp only [hl0, if_true] at h
          have hspec := m2mRun_spec _ _ _ _ _ _ _ h
          refine ⟨by rw [hspec.1], Or.inr ⟨by rw [hm]; simpa using hr0,
            by rw [hspec.2.1], by rw [hspec.2.2]⟩⟩
        · simp only [hl0, if_false, Bool.false_eq_true] at h
          have hspec := m2mRun_spec _ _ _ _ _ _ _ h
          refine ⟨by rw [hspec.1], Or.inr ⟨by rw [hm]; simpa using hr0,
            by rw [hspec.2.1], by rw [hspec.2.2]⟩⟩

/-! ## Claim C10 (full-hash catalogs and the dedup guard)

Records inserted in full-hash mode store the text `None` in `parthash`
(claim C4), so every source record presents `parthash = 'None'` to the
planner.  After the first record is processed, `'None'` is in `done` and the
guard at line 408 skips every further source record: the `done` list never
grows past one element. -/

theorem entriesLoop_doneInv (src_dbs dst_dbs : DbMap) (p : String) :
    ∀ (es : List FileRecord) (st st' : PlanState),
      (∀ e ∈ es, e.parthash = some "None") →
      entriesLoop src_dbs dst_dbs p es st = some st' →
      (st.done = [] ∨ st.done = [some "None"]) →
      (st'.done = [] ∨ st'.done = [some "None"]) := by
  intro es
  induction es with
  | nil =>
    intro st st' _ h hinv
    cases h
    exact hinv
  | cons e es ih =>
    intro st st' hall h hinv
    cases hpe : processEntry src_dbs dst_dbs p e st with
    | none => rw [entriesLoop, hpe] at h; cases h
    | some st1 =>
      rw [entriesLoop, hpe] at h
      have he : e.parthash = some "None" := hall e (by simp)
      have hes : ∀ x ∈ es, x.parthash = some "None" := fun x hx => hall x (by simp [hx])
      rcases processEntry_spec src_dbs dst_dbs p e st st1 hpe with ⟨_, rfl⟩ | ⟨hc, hdone, _⟩
      · exact ih _ _ hes h hinv
      · rcases hinv with hinv | hinv
        · refine ih st1 st' hes h (Or.inr ?_)
          rw [hdone, hinv, he]
          rfl
        · exfalso
          rw [hinv, he] at hc
          simp [List.contains] at hc

theorem dbLoop_doneInv (src_dbs dst_dbs : DbMap) :
    ∀ (l : List (String × Store)) (subdir : Option String) (st st' : PlanState),
      (∀ pr ∈ l, ∀ r ∈ pr.2, r.parthash = some "None") →
      dbLoop src_dbs dst_dbs l subdir st = some st' →
      (st.done = [] ∨ st.done = [some "None"]) →
      (st'.done = [] ∨ st'.done = [some "None"]) := by
  intro l
  induction l with
  | nil =>
    intro subdir st st' _ h hinv
    cases subdir <;> (cases h; exact hinv)
  | cons pr rest ih =>
    intro subdir st st' hall h hinv
    obtain ⟨pp, store⟩ := pr
    simp only [dbLoop] at h
    have hst2 : ∀ (st2 : PlanState),
        (entriesLoop src_dbs dst_dbs pp (store.filter (fun r => 0 < r.size)) st2).bind
          (dbLoop src_dbs dst_dbs rest (some pp)) = some st' →
        st2.done = st.done →
        (st'.done = [] ∨ st'.done = [some "None"]) := by
      intro st2 hb hd2
      cases hel : entriesLoop src_dbs dst_dbs pp (store.filter (fun r => 0 < r.size)) st2 with
      | none => rw [hel] at hb; cases hb
      | some st3 =>
        rw [hel] at hb
        have hinv2 : st2.done = [] ∨ st2.done = [some "None"] := by rw [hd2]; exact hinv
        have hents : ∀ e ∈ store.filter (fun r => 0 < r.size), e.parthash = some "None" :=
          fun e hx => hall (pp, store) (by simp) e (List.mem_of_mem_filter hx)
        have hinv3 := entriesLoop_doneInv src_dbs dst_dbs pp _ st2 st3 hents hel hinv2
        exact ih (some pp) st3 st' (fun q hq r hr => hall q (by simp [hq]) r hr) hb hinv3
    cases subdir with
    | none => exact hst2 _ h rfl
    | some s => exact hst2 _ h rfl

/-- C10: when every source catalog the planner reads was produced in
full-hash mode — every record's `parthash` column holds the text `None` —
the planner's `done` list never holds more than the single value `'None'`:
after the first source record is processed the dedup guard skips every
subsequent one, so at most one fingerprint group contributes operations to
the script. -/
theorem C10_full_hash_at_most_one_group (src_dbs dst_dbs : DbMap) (st : PlanState)
    (hall : ∀ pr ∈ src_dbs, ∀ r ∈ pr.2, r.parthash = some "None")
    (hrun : gen_sync_script src_dbs dst_dbs = some st) :
    st.done.length ≤ 1 := by
  have h := dbLoop_doneInv src_dbs dst_dbs src_dbs none ⟨[Chunk.header], [], 0, 0, [], []⟩
    st hall hrun (Or.inl rfl)
  rcases h with h | h <;> simp [h]

/-- The source catalogs of the C10 witness: two full-hash records. -/
def C10wsrc : DbMap :=
  [("S", [⟨"a", "a", 1, some "h1", some "None"⟩, ⟨"b", "b/c", 2, some "h2", some "None"⟩])]

/-- The (empty) destination side of the C10 witness. -/
def C10wdst : DbMap := []

/-- The planner state of the C10 witness run. -/
def C10wst : PlanState := (gen_sync_script C10wsrc C10wdst).getD default

/-- C10 witness: the theorem at a concrete two-record full-hash catalog. -/
theorem C10_witness : C10wst.done.length ≤ 1 :=
  C10_full_hash_at_most_one_group C10wsrc C10wdst C10wst (by decide) (by decide)

/-! ## Claim C9 (transfer accounting and unit display)

`missingRecords` restates, from the spec's words, which source records the
planner flags missing on destination: the records, in iteration order, that
pass the dedup guard and whose fingerprint group has no destination rows (and
is not a 1:1 match).  The theorem proves the planner's byte counter equals
the sum of their sizes and the script's missing-comment chunks are exactly
theirs, and that the final report is the floor of the counter in the largest
fitting 1000-based unit. -/

/-- How the `done` list evolves over a record sequence. -/
def doneGo : List FileRecord → List (Option String) → List (Option String)
  | [], d => d
  | e :: es, d => doneGo es (if d.contains e.parthash then d else d ++ [e.parthash])

/-- Modelled from the spec: the subsequence of records reported missing on
destination, threading the dedup guard. -/
def missingGo (src_dbs dst_dbs : DbMap) : List FileRecord → List (Option String) → List FileRecord
  | [], _ => []
  | e :: es, d =>
    if d.contains e.parthash then missingGo src_dbs dst_dbs es d
    else if isMissingEntry src_dbs dst_dbs e then
      e :: missingGo src_dbs dst_dbs es (d ++ [e.parthash])
    else missingGo src_dbs dst_dbs es (d ++ [e.parthash])

/-- All rows the planner iterates: each source catalog's rows with positive
size, catalogs in discovery order. -/
def plannerEntries (l : List (String × Store)) : List FileRecord :=
  l.foldl (fun a p => a ++ p.2.filter (fun r => 0 < r.size)) []

/-- The records the planner flags missing on destination, whole run. -/
def missingRecords (src_dbs dst_dbs : DbMap) : List FileRecord :=
  missingGo src_dbs dst_dbs (plannerEntries src_dbs) []

theorem plannerEntries_eq : ∀ (l : List (String × Store)) (a : List FileRecord),
    l.foldl (fun a p => a ++ p.2.filter (fun r => 0 < r.size)) a = a ++ plannerEntries l := by
  intro l
  induction l with
  | nil => intro a; simp [plannerEntries]
  | cons x t ih =>
    intro a
    show List.foldl _ (a ++ x.2.filter (fun r => 0 < r.size)) t = _
    rw [ih]
    have h2 : plannerEntries (x :: t)
        = x.2.filter (fun r => 0 < r.size) ++ plannerEntries t := by
      show List.foldl _ ([] ++ x.2.filter (fun r => 0 < r.size)) t = _
      rw [ih]
      simp
    rw [h2, List.append_assoc]

theorem doneGo_append : ∀ (es1 es2 : List FileRecord) (d : List (Option String)),
    doneGo (es1 ++ es2) d = doneGo es2 (doneGo es1 d) := by
  intro es1
  induction es1 with
  | nil => intro es2 d; rfl
  | cons e es ih =>
    intro es2 d
    show doneGo (es ++ es2) _ = _
    rw [ih]
    rfl

theorem missingGo_append (src_dbs dst_dbs : DbMap) :
    ∀ (es1 es2 : List FileRecord) (d : List (Option String)),
    missingGo src_dbs dst_dbs (es1 ++ es2) d
      = missingGo src_dbs dst_dbs es1 d
        ++ missingGo src_dbs dst_dbs es2 (doneGo es1 d) := by
  intro es1
  induction es1 with
  | nil => intro es2 d; rfl
  | cons e es ih =>
    intro es2 d
    by_cases hc : d.contains e.parthash
    · show missingGo src_dbs dst_dbs (e :: (es ++ es2)) d = _
      rw [missingGo, if_pos hc, ih]
      rw [missingGo, if_pos hc]
      rw [doneGo, if_pos hc]
    · show missingGo src_dbs dst_dbs (e :: (es ++ es2)) d = _
      rw [missingGo, if_neg hc, ih]
      rw [missingGo, if_neg hc]
      rw [doneGo, if_neg hc]
      by_cases hM : isMissingEntry src_dbs dst_dbs e = true
      · rw [if_pos hM, if_pos hM]
        rfl
      · rw [if_neg hM, if_neg hM]

theorem entriesLoop_spec (src_dbs dst_dbs : DbMap) (p : String) :
    ∀ (es : List FileRecord) (st st' : PlanState),
      entriesLoop src_dbs dst_dbs p es st = some st' →
      st'.done = doneGo es st.done ∧
      st'.transfer_bytes = st.transfer_bytes
        + ((missingGo src_dbs dst_dbs es st.done).map (fun r => r.size)).sum ∧
      (st'.script).filter isMissing = (st.script).filter isMissing
        ++ (missingGo src_dbs dst_dbs es st.done).map (fun r => Chunk.missingC r.relpath) := by
  intro es
  induction es with
  | nil =>
    intro st st' h
    cases h
    refine ⟨rfl, by simp [missingGo], by simp [missingGo]⟩
  | cons e es ih =>
    intro st st' h
    cases hpe : processEntry src_dbs dst_dbs p e st with
    | none => rw [entriesLoop, hpe] at h; cases h
    | some st1 =>
      rw [entriesLoop, hpe] at h
      have hih := ih st1 st' h
      rcases processEntry_spec src_dbs dst_dbs p e st st1 hpe with ⟨hc, rfl⟩ | ⟨hc, hdone, hbr⟩
      · rw [doneGo, if_pos hc, missingGo, if_pos hc] at *
        exact hih
      · rw [doneGo, if_neg (by rw [hc]; simp), missingGo, if_neg (by rw [hc]; simp)]
        rcases hbr with ⟨hM, htb, hsc⟩ | ⟨hM, htb, hsc⟩
        · rw [if_pos hM]
          refine ⟨?_, ?_, ?_⟩
          · rw [hih.1, hdone]
          · rw [hih.2.1, htb, hdone]
            simp
            omega
          · rw [hih.2.2, hsc, hdone]
            simp
        · rw [if_neg (by rw [hM]; simp)]
          refine ⟨?_, ?_, ?_⟩
          · rw [hih.1, hdone]
          · rw [hih.2.1, htb, hdone]
          · rw [hih.2.2, hsc, hdone]

theorem dbLoop_spec (src_dbs dst_dbs : DbMap) :
    ∀ (l : List (String × Store)) (subdir : Option String) (st st' : PlanState),
      dbLoop src_dbs dst_dbs l subdir st = some st' →
      st'.done = doneGo (plannerEntries l) st.done ∧
      st'.transfer_bytes = st.transfer_bytes
        + ((missingGo src_dbs dst_dbs (plannerEntries l) st.done).map (fun r => r.size)).sum ∧
      (st'.script).filter isMissing = (st.script).filter isMissing
        ++ (missingGo src_dbs dst_dbs (plannerEntries l) st.done).map
            (fun r => Chunk.missingC r.relpath) := by
  intro l
  induction l with
  | nil =>
    intro subdir st st' h
    cases subdir with
    | none =>
      cases h
      exact ⟨rfl, by simp [plannerEntries, missingGo], by simp [plannerEntries, missingGo]⟩
    | some s =>
      cases h
      refine ⟨rfl, by simp [plannerEntries, missingGo], ?_⟩
      show (st.script ++ [Chunk.cdFinal s]).filter isMissing = _
      simp [plannerEntries, missingGo, isMissing]
  | cons pr rest ih =>
    intro subdir st st' h
    obtain ⟨pp, store⟩ := pr
    simp only [dbLoop] at h
    have hfilt : plannerEntries ((pp, store) :: rest)
        = store.filter (fun r => 0 < r.size) ++ plannerEntries rest := by
      show List.foldl _ ([] ++ store.filter (fun r => 0 < r.size)) rest = _
      rw [plannerEntries_eq]
      simp
    have hst2 : ∀ (st2 : PlanState),
        (entriesLoop src_dbs dst_dbs pp (store.filter (fun r => 0 < r.size)) st2).bind
          (dbLoop src_dbs dst_dbs rest (some pp)) = some st' →
        st2.done = st.done → st2.transfer_bytes = st.transfer_bytes →
        (st2.script).filter isMissing = (st.script).filter isMissing →
        st'.done = doneGo (plannerEntries ((pp, store) :: rest)) st.done ∧
        st'.transfer_bytes = st.transfer_bytes
          + ((missingGo src_dbs dst_dbs (plannerEntries ((pp, store) :: rest)) st.done).map
              (fun r => r.size)).sum ∧
        (st'.script).filter isMissing = (st.script).filter isMissing
          ++ (missingGo src_dbs dst_dbs (plannerEntries ((pp, store) :: rest)) st.done).map
              (fun r => Chunk.missingC r.relpath) := by
      intro st2 hb hd2 ht2 hs2
      cases hel : entriesLoop src_dbs dst_dbs pp (store.filter (fun r => 0 < r.size)) st2 with
      | none => rw [hel] at hb; cases hb
      | some st3 =>
        rw [hel] at hb
        have h1 := entriesLoop_spec src_dbs dst_dbs pp _ st2 st3 hel
        have h2 := ih (some pp) st3 st' hb
        rw [hfilt, missingGo_append, doneGo_append]
        have hd3 : st3.done = doneGo (store.filter (fun r => 0 < r.size)) st.done := by
          rw [h1.1, hd2]
        refine ⟨?_, ?_, ?_⟩
        · rw [h2.1, hd3]
        · rw [h2.2.1, h1.2.1, ht2, hd2, hd3]
          simp
          omega
        · rw [h2.2.2, h1.2.2, hs2, hd2, hd3]
          simp
    cases subdir with
    | none =>
      refine hst2 _ h rfl rfl ?_
      show (st.script ++ [Chunk.cdInto pp]).filter isMissing = _
      simp [isMissing]
    | some s =>
      refine hst2 _ h rfl rfl ?_
      show (st.script ++ [Chunk.cdBack s, Chunk.cdInto pp]).filter isMissing = _
      simp [isMissing]

theorem dui_eq0 (tb : Nat) (h : tb < 1000) : displayUnitIdx tb = 0 := by
  unfold displayUnitIdx
  rw [show (List.range 5) = [0, 1, 2, 3, 4] from rfl]
  norm_num [List.find?, h]

theorem dui_eq1 (tb : Nat) (h0 : ¬tb < 1000) (h : tb < 1000000) : displayUnitIdx tb = 1 := by
  unfold displayUnitIdx
  rw [show (List.range 5) = [0, 1, 2, 3, 4] from rfl]
  norm_num [List.find?, h0, h]

theorem dui_eq2 (tb : Nat) (h0 : ¬tb < 1000) (h1 : ¬tb < 1000000)
    (h : tb < 1000000000) : displayUnitIdx tb = 2 := by
  unfold displayUnitIdx
  rw [show (List.range 5) = [0, 1, 2, 3, 4] from rfl]
  norm_num [List.find?, h0, h1, h]

theorem dui_eq3 (tb : Nat) (h0 : ¬tb < 1000) (h1 : ¬tb < 1000000)
    (h2 : ¬tb < 1000000000) (h : tb < 1000000000000) : displayUnitIdx tb = 3 := by
  unfold displayUnitIdx
  rw [show (List.range 5) = [0, 1, 2, 3, 4] from rfl]
  norm_num [List.find?, h0, h1, h2, h]

theorem dui_eq4 (tb : Nat) (h0 : ¬tb < 1000) (h1 : ¬tb < 1000000)
    (h2 : ¬tb < 1000000000) (h3 : ¬tb < 1000000000000) : displayUnitIdx tb = 4 := by
  unfold displayUnitIdx
  rw [show (List.range 5) = [0, 1, 2, 3, 4] from rfl]
  by_cases h4 : tb < 1000000000000000 <;> norm_num [List.find?, h0, h1, h2, h3, h4]

/-- The unit index is the largest fitting 1000-based unit among B..TB: it is
at most 4 (TB), the unit's magnitude fits into the counter (except the
degenerate B case), and below TB the next unit would not fit. -/
theorem displayUnitIdx_spec (tb : Nat) :
    displayUnitIdx tb ≤ 4 ∧
    (1000 ^ displayUnitIdx tb ≤ tb ∨ displayUnitIdx tb = 0) ∧
    (displayUnitIdx tb < 4 → tb < 1000 ^ (displayUnitIdx tb + 1)) := by
  by_cases h0 : tb < 1000
  · rw [dui_eq0 tb h0]
    exact ⟨by norm_num, Or.inr rfl, fun _ => by norm_num; omega⟩
  · by_cases h1 : tb < 1000000
    · rw [dui_eq1 tb h0 h1]
      exact ⟨by norm_num, Or.inl (by norm_num; omega), fun _ => by norm_num; omega⟩
    · by_cases h2 : tb < 1000000000
      · rw [dui_eq2 tb h0 h1 h2]
        exact ⟨by norm_num, Or.inl (by norm_num; omega), fun _ => by norm_num; omega⟩
      · by_cases h3 : tb < 1000000000000
        · rw [dui_eq3 tb h0 h1 h2 h3]
          exact ⟨by norm_num, Or.inl (by norm_num; omega), fun _ => by norm_num; omega⟩
        · rw [dui_eq4 tb h0 h1 h2 h3]
          exact ⟨by norm_num, Or.inl (by norm_num; omega), fun hk => by omega⟩

/-- The displayed number is the floor of the counter in the chosen unit. -/
theorem display_value_bounds (tb : Nat) :
    display_value tb * 1000 ^ displayUnitIdx tb ≤ tb ∧
    tb < (display_value tb + 1) * 1000 ^ displayUnitIdx tb := by
  have hdpos : 0 < 1000 ^ displayUnitIdx tb := pow_pos (by norm_num) _
  constructor
  · exact Nat.div_mul_le_self tb _
  · have h1 : tb % 1000 ^ displayUnitIdx tb < 1000 ^ displayUnitIdx tb := Nat.mod_lt tb hdpos
    have h2 := Nat.div_add_mod tb (1000 ^ displayUnitIdx tb)
    calc tb = 1000 ^ displayUnitIdx tb * (tb / 1000 ^ displayUnitIdx tb)
          + tb % 1000 ^ displayUnitIdx tb := h2.symm
      _ < 1000 ^ displayUnitIdx tb * (tb / 1000 ^ displayUnitIdx tb)
          + 1000 ^ displayUnitIdx tb := by omega
      _ = (tb / 1000 ^ displayUnitIdx tb + 1) * 1000 ^ displayUnitIdx tb := by ring

/-- C9: when the planner completes, its byte counter equals the sum of the
sizes of exactly the records it flagged "missing on destination", the
script's missing comments are exactly theirs in order, and the reported total
is the counter rounded down to the largest fitting unit among B..TB in
1000-based steps (Python's `int(tb / 1000**u)` is this floor for all counters
below 2^53). -/
theorem C9_transfer_accounting (src_dbs dst_dbs : DbMap) (st : PlanState)
    (h : gen_sync_script src_dbs dst_dbs = some st) :
    st.transfer_bytes = ((missingRecords src_dbs dst_dbs).map (fun r => r.size)).sum ∧
    (st.script).filter isMissing
      = (missingRecords src_dbs dst_dbs).map (fun r => Chunk.missingC r.relpath) ∧
    display_value st.transfer_bytes * 1000 ^ displayUnitIdx st.transfer_bytes
      ≤ st.transfer_bytes ∧
    st.transfer_bytes
      < (display_value st.transfer_bytes + 1) * 1000 ^ displayUnitIdx st.transfer_bytes ∧
    displayUnitIdx st.transfer_bytes ≤ 4 ∧
    (1000 ^ displayUnitIdx st.transfer_bytes ≤ st.transfer_bytes
      ∨ displayUnitIdx st.transfer_bytes = 0) ∧
    (displayUnitIdx st.transfer_bytes < 4 →
      st.transfer_bytes < 1000 ^ (displayUnitIdx st.transfer_bytes + 1)) := by
  have hd := dbLoop_spec src_dbs dst_dbs src_dbs none ⟨[Chunk.header], [], 0, 0, [], []⟩ st h
  refine ⟨?_, ?_, (display_value_bounds _).1, (display_value_bounds _).2,
    (displayUnitIdx_spec _).1, (displayUnitIdx_spec _).2.1, (displayUnitIdx_spec _).2.2⟩
  · have h1 := hd.2.1
    simpa [missingRecords] using h1
  · have h1 := hd.2.2
    have hh : ([Chunk.header] : List Chunk).filter isMissing = [] := rfl
    rw [hh] at h1
    simpa [missingRecords] using h1

/-- The source catalog of the C9 witness. -/
def C9wsrc : DbMap := [("S", [⟨"x", "x", 7, some "None", some "aa"⟩])]

/-- The (empty) destination side of the C9 witness. -/
def C9wdst : DbMap := []

/-- The planner state of the C9 witness run. -/
def C9wst : PlanState := (gen_sync_script C9wsrc C9wdst).getD default

/-- C9 witness: the theorem at a concrete run with one record missing on the
destination. -/
theorem C9_witness :
    C9wst.transfer_bytes = ((missingRecords C9wsrc C9wdst).map (fun r => r.size)).sum ∧
    (C9wst.script).filter isMissing
      = (missingRecords C9wsrc C9wdst).map (fun r => Chunk.missingC r.relpath) ∧
    display_value C9wst.transfer_bytes * 1000 ^ displayUnitIdx C9wst.transfer_bytes
      ≤ C9wst.transfer_bytes ∧
    C9wst.transfer_bytes
      < (display_value C9wst.transfer_bytes + 1) * 1000 ^ displayUnitIdx C9wst.transfer_bytes ∧
    displayUnitIdx C9wst.transfer_bytes ≤ 4 ∧
    (1000 ^ displayUnitIdx C9wst.transfer_bytes ≤ C9wst.transfer_bytes
      ∨ displayUnitIdx C9wst.transfer_bytes = 0) ∧
    (displayUnitIdx C9wst.transfer_bytes < 4 →
      C9wst.transfer_bytes < 1000 ^ (displayUnitIdx C9wst.transfer_bytes + 1)) :=
  C9_transfer_accounting C9wsrc C9wdst C9wst (by decide)

/-- The source catalogs of the C7 witness. -/
def C7wsrc : DbMap := [("s", [⟨"x", "x", 1, some "None", some "abc123"⟩])]

/-- C7 witness: the theorem at a concrete one-record catalog. -/
theorem C7_witness :
    0 < rowCount (selectFP C7wsrc 1 (pyStr (some "abc123"))) :=
  C7_l_num_positive C7wsrc "s" [⟨"x", "x", 1, some "None", some "abc123"⟩]
    ⟨"x", "x", 1, some "None", some "abc123"⟩ "abc123"
    (by decide) (by decide) (by decide) (by decide) (by decide)

end Dirdb
